import Mathlib

/-!
# History-tracking calculator service

A shallow embedding of `internal/services/calculator_service.go` and of the
HTTP adapter of `internal/api` in front of it.

* The mutex-guarded struct `calcSvc` becomes a record that every operation
  takes and returns (one call = one critical section, run sequentially).
* Go's `float64` is a type parameter `F` together with the primitive
  operations the service uses on it (`float64.Ops`): the theorems hold for
  every interpretation of these primitives.
* Go's `error` is `Option String` (`none` is `nil`, `some msg` an error whose
  `Error()` text is `msg`).
* `time.Now()` is an argument `now` of each recording operation.
* `int` and `int64` values are mathematical integers (`Int`). The id counter
  starts at 0 and grows by one per recorded call, so a run would need 2^63
  recorded calls to reach the end of the `int64` range; runs of that length
  are outside the model.
-/

/-- Go's `time.Time`, as a clock reading. -/
abbrev time.Time := Int

/-- Go's `error`: `none` is `nil`, `some msg` is an error with message `msg`. -/
abbrev error := Option String

/-- The primitive `float64` operations the service relies on: the literal `0`,
the comparison `x == 0`, and the four arithmetic operators. -/
structure float64.Ops (F : Type) where
  zero : F
  eqZero : F → Bool
  add : F → F → F
  sub : F → F → F
  mul : F → F → F
  div : F → F → F
  eqZero_zero : eqZero zero = true

/-- Exact rational arithmetic, an instance on which the definitions can be
evaluated (it agrees with `float64` wherever the latter is exact). -/
def float64.exact : float64.Ops ℚ where
  zero := 0
  eqZero := fun x => decide (x = 0)
  add := fun x y => x + y
  sub := fun x y => x - y
  mul := fun x y => x * y
  div := fun x y => x / y
  eqZero_zero := by simp

/-- `HistoryEntry` (calculator_service.go, lines 10-18). -/
structure HistoryEntry (F : Type) where
  ID : Int
  Time : time.Time
  Op : String
  A : F
  B : F
  Result : F
  Error : String
  deriving DecidableEq

/-- `config` (lines 40-42). -/
structure config where
  maxHistory : Int
  deriving DecidableEq

/-- `Option` of the service package (line 44): a function updating the
configuration. -/
abbrev service.Option := config → config

/-- `WithMaxHistory` (lines 46-52): sets the capacity when `n > 0`, otherwise
leaves the configuration alone. -/
def WithMaxHistory (n : Int) : service.Option :=
  fun c => if n > 0 then { c with maxHistory := n } else c

/-- `calcSvc` (lines 54-59), without the mutex. -/
structure calcSvc (F : Type) where
  history : List (HistoryEntry F)
  nextID : Int
  maxHistory : Int
  deriving DecidableEq

/-- `NewCalculatorService` (lines 30-38): the default capacity 1000, then each
option applied in order; history `nil` and `nextID` 0 (Go zero values). -/
def NewCalculatorService {F : Type} (opts : List service.Option) : calcSvc F :=
  let cfg : config := opts.foldl (fun cfg opt => opt cfg) { maxHistory := 1000 }
  { history := [], nextID := 0, maxHistory := cfg.maxHistory }

/-- The entry built by `record` (lines 65-72 and 75-77). -/
def calcSvc.record.entry {F : Type} (s : calcSvc F) (now : time.Time) (op : String)
    (a b result : F) (err : error) : HistoryEntry F :=
  let entry : HistoryEntry F :=
    { ID := s.nextID, Time := now, Op := op, A := a, B := b, Result := result, Error := "" }
  match err with
  | some msg => { entry with Error := msg }
  | none => entry

/-- `calcSvc.record` (lines 61-84): build the entry with the current `nextID`,
increment the counter, append, and when the length exceeds `maxHistory` keep
`history[drop:]` with `drop = len - maxHistory`. (For `maxHistory < 0` the Go
slice expression would be out of range; `NewCalculatorService` never builds
such a service and no operation changes `maxHistory`, so that case is never
reached from a built service; here it leaves the history empty.) -/
def calcSvc.record {F : Type} (s : calcSvc F) (now : time.Time) (op : String)
    (a b result : F) (err : error) : calcSvc F :=
  let entry := calcSvc.record.entry s now op a b result err
  let nextID := s.nextID + 1
  let history := s.history ++ [entry]
  if (history.length : Int) > s.maxHistory then
    let drop : Int := (history.length : Int) - s.maxHistory
    { history := history.drop drop.toNat, nextID := nextID, maxHistory := s.maxHistory }
  else
    { history := history, nextID := nextID, maxHistory := s.maxHistory }

/-- Modelled from the spec: the message of the error of `calculator.Divide`
(package `calculator`, only its test is present): "a message identifying
division by zero". -/
def calculator.divisionByZero : String := "division by zero"

/-- Modelled from the spec: `calculator.Add` (package `calculator`, only its
test is present): `add(a,b) -> a+b`, always succeeds. -/
def calculator.Add {F : Type} (fl : float64.Ops F) (a b : F) : F := fl.add a b

/-- Modelled from the spec: `calculator.Subtract` (package `calculator`, only
its test is present): `subtract(a,b) -> a-b`, always succeeds. -/
def calculator.Subtract {F : Type} (fl : float64.Ops F) (a b : F) : F := fl.sub a b

/-- Modelled from the spec: `calculator.Multiply` (package `calculator`, only
its test is present): `multiply(a,b) -> a*b`, always succeeds. -/
def calculator.Multiply {F : Type} (fl : float64.Ops F) (a b : F) : F := fl.mul a b

/-- Modelled from the spec: `calculator.Divide` (package `calculator`, only its
test is present): `divide(a,b) -> a/b`, failing when `b == 0` (exact equality)
with a message identifying "division by zero" and no result (value 0). -/
def calculator.Divide {F : Type} (fl : float64.Ops F) (a b : F) : F × error :=
  if fl.eqZero b then (fl.zero, some calculator.divisionByZero) else (fl.div a b, none)

/-- `calcSvc.Add` (lines 86-90): the returned value and the state after. -/
def calcSvc.Add {F : Type} (fl : float64.Ops F) (s : calcSvc F) (now : time.Time)
    (a b : F) : F × calcSvc F :=
  let res := calculator.Add fl a b
  (res, s.record now "add" a b res none)

/-- `calcSvc.Subtract` (lines 92-96). -/
def calcSvc.Subtract {F : Type} (fl : float64.Ops F) (s : calcSvc F) (now : time.Time)
    (a b : F) : F × calcSvc F :=
  let res := calculator.Subtract fl a b
  (res, s.record now "subtract" a b res none)

/-- `calcSvc.Multiply` (lines 98-102). -/
def calcSvc.Multiply {F : Type} (fl : float64.Ops F) (s : calcSvc F) (now : time.Time)
    (a b : F) : F × calcSvc F :=
  let res := calculator.Multiply fl a b
  (res, s.record now "multiply" a b res none)

/-- `calcSvc.Divide` (lines 104-113): the returned pair `(value, err)` and the
state after. -/
def calcSvc.Divide {F : Type} (fl : float64.Ops F) (s : calcSvc F) (now : time.Time)
    (a b : F) : (F × error) × calcSvc F :=
  if fl.eqZero b then
    let err : error := some "division by zero is not allowed"
    ((fl.zero, err), s.record now "divide" a b fl.zero err)
  else
    let r := calculator.Divide fl a b
    ((r.1, r.2), s.record now "divide" a b r.1 r.2)

/-- The loop of `GetHistory` (lines 124-130). `todo` is the number of
iterations left (`limit - i`); each one computes `index = len - 1 - i`, breaks
when it is negative, and otherwise appends `history[index]` (the index is
below `len`, so the lookup succeeds). -/
def calcSvc.GetHistory.loop {F : Type} (history : List (HistoryEntry F)) :
    Nat → Nat → List (HistoryEntry F) → List (HistoryEntry F)
  | 0, _, out => out
  | todo + 1, i, out =>
    let index : Int := (history.length : Int) - 1 - (i : Int)
    if index < 0 then out
    else
      match history[index.toNat]? with
      | some e => calcSvc.GetHistory.loop history todo (i + 1) (out ++ [e])
      | none => out

/-- `calcSvc.GetHistory` (lines 115-132): the state is not modified. -/
def calcSvc.GetHistory {F : Type} (s : calcSvc F) (limit : Int) : List (HistoryEntry F) :=
  let limit : Int :=
    if limit ≤ 0 ∨ limit > (s.history.length : Int) then (s.history.length : Int) else limit
  calcSvc.GetHistory.loop s.history limit.toNat 0 []

/-- `calcSvc.ClearHistory` (lines 134-138). -/
def calcSvc.ClearHistory {F : Type} (s : calcSvc F) : calcSvc F :=
  { s with history := [] }

/-- One call on the `CalculatorService` interface (lines 20-28); the recording
calls carry the clock reading their `record` takes. -/
inductive Call (F : Type) where
  | Add (now : time.Time) (a b : F)
  | Subtract (now : time.Time) (a b : F)
  | Multiply (now : time.Time) (a b : F)
  | Divide (now : time.Time) (a b : F)
  | GetHistory (limit : Int)
  | ClearHistory

/-- The state after one call. -/
def calcSvc.step {F : Type} (fl : float64.Ops F) (s : calcSvc F) : Call F → calcSvc F
  | .Add now a b => (s.Add fl now a b).2
  | .Subtract now a b => (s.Subtract fl now a b).2
  | .Multiply now a b => (s.Multiply fl now a b).2
  | .Divide now a b => (s.Divide fl now a b).2
  | .GetHistory _ => s
  | .ClearHistory => s.ClearHistory

/-- The state after a finite sequence of calls, in order. -/
def calcSvc.run {F : Type} (fl : float64.Ops F) (s : calcSvc F) (calls : List (Call F)) :
    calcSvc F :=
  calls.foldl (calcSvc.step fl) s

/-! ## The HTTP adapter (`internal/api`)

A handler takes the request and returns the response it writes together with
the adapter after the call (the service it holds may have recorded an entry).
The standard library is not translated: the functions the adapter calls from
it are the fields of `api.Lib`. -/

/-- The error of a `strconv` parsing function: `ErrSyntax` or `ErrRange`. -/
inductive strconv.NumError where
  | ErrSyntax
  | ErrRange
  deriving DecidableEq

/-- `calcRequest` (calculator_api.go, lines 50-53); a `json.Number` is the
text of the number. -/
structure calcRequest where
  A : String
  B : String
  deriving DecidableEq

/-- `calcResponse` (lines 55-58). -/
structure calcResponse (F : Type) where
  Result : F
  Error : String
  deriving DecidableEq

/-- `Problem` (codec.go, lines 46-51); the field `Type` is `Type_` here. -/
structure Problem where
  Type_ : String
  Title : String
  Status : Int
  Detail : String
  deriving DecidableEq

/-- The value a handler passes to `WriteJSON`. -/
inductive Payload (F : Type) where
  | problem (p : Problem)
  | result (r : calcResponse F)
  | history (items : List (HistoryEntry F))
  | status (value : String)
  deriving DecidableEq

/-- What a handler writes to its `http.ResponseWriter`. -/
structure Response (F : Type) where
  ContentType : String
  Status : Int
  Body : Payload F
  deriving DecidableEq

/-- `url.Values`: the values of each key (none for an absent key). -/
abbrev url.Values := String → List String

/-- `url.Values.Get`: the first value of the key, or "" when there is none. -/
def url.Values.Get (v : url.Values) (key : String) : String :=
  (v key).headD ""

/-- The parts of an `http.Request` the handlers read: method, `URL.Path`,
`URL.Query()`, the `Content-Type` header and the body. -/
structure http.Request where
  Method : String
  Path : String
  Query : url.Values
  ContentType : String
  Body : String

/-- `http.StatusOK`. -/
def http.StatusOK : Int := 200

/-- `http.StatusBadRequest`. -/
def http.StatusBadRequest : Int := 400

/-- The standard-library functions the adapter uses, on top of the `float64`
primitives: `math.IsNaN`, `math.IsInf(x, 0)`, `strconv.ParseFloat(s, 64)`
(value and error), `strconv.Atoi` (value and error), `strings.ToLower`, and
`Decode`: the strict `json.Decoder` of `DecodeJSON` (body capped at
`maxBodyBytes`, unknown fields disallowed, numbers kept as text) applied to the
body, giving an error message or the decoded request and whether more data
follows it (`dec.More()`). -/
structure api.Lib (F : Type) extends float64.Ops F where
  IsNaN : F → Bool
  IsInf : F → Bool
  ParseFloat : String → F × Option strconv.NumError
  Atoi : String → Int × Option strconv.NumError
  ToLower : String → String
  Decode : String → Except String (calcRequest × Bool)

/-- `isFinite` (utils.go, line 10). -/
def isFinite {F : Type} (lib : api.Lib F) (x : F) : Bool :=
  !lib.IsNaN x && !lib.IsInf x

/-- `parseJSONNumber` (utils.go, lines 12-18): `n.Float64()` is
`strconv.ParseFloat(string(n), 64)`; a range error is swallowed, any other
error is returned with value 0. -/
def parseJSONNumber {F : Type} (lib : api.Lib F) (n : String) : F × Option strconv.NumError :=
  match lib.ParseFloat n with
  | (f, some err) => if err ≠ strconv.NumError.ErrRange then (lib.zero, some err) else (f, none)
  | (f, none) => (f, none)

/-- `DecodeJSON` (codec.go, lines 14-37). -/
def DecodeJSON {F : Type} (lib : api.Lib F) (r : http.Request) : Except String calcRequest :=
  if (r.Method = "POST" ∨ r.Method = "PUT" ∨ r.Method = "PATCH")
      ∧ ¬ ("application/json".toList <+: (lib.ToLower r.ContentType).toList) then
    .error "Content-Type must be application/json"
  else
    match lib.Decode r.Body with
    | .error err => .error err
    | .ok (v, more) => if more then .error "unexpected trailing data" else .ok v

/-- `WriteJSON` (codec.go, lines 40-44). -/
def WriteJSON {F : Type} (status : Int) (v : Payload F) : Response F :=
  { ContentType := "application/json; charset=utf-8", Status := status, Body := v }

/-- `WriteProblem` (codec.go, lines 55-62). -/
def WriteProblem {F : Type} (status : Int) (title : String) (detail : String) : Response F :=
  WriteJSON status (.problem { Type_ := "", Title := title, Status := status, Detail := detail })

/-- `API` (calculator_api.go, lines 11-13): the service is held by value here,
so a handler returns the adapter holding the service after the call. -/
structure API (F : Type) where
  svc : calcSvc F

/-- `binOp` (line 60): a closure over the service, so it takes the service and
the clock reading and also returns the service after the call. -/
abbrev binOp (F : Type) := calcSvc F → time.Time → F → F → (F × error) × calcSvc F

/-- `API.getHistory` (lines 34-43). -/
def API.getHistory {F : Type} (lib : api.Lib F) (a : API F) (r : http.Request) :
    Response F × API F :=
  let limit : Int := 50
  let s := r.Query.Get "limit"
  let limit : Int :=
    if s ≠ "" then
      match lib.Atoi s with
      | (n, none) => if n > 0 then n else limit
      | (_, some _) => limit
    else limit
  let items := a.svc.GetHistory limit
  (WriteJSON http.StatusOK (.history items), a)

/-- `API.clearHistory` (lines 45-48). -/
def API.clearHistory {F : Type} (a : API F) : Response F × API F :=
  (WriteJSON http.StatusOK (.status "cleaned"), { svc := a.svc.ClearHistory })

/-- `API.binaryOp` (lines 62-89). -/
def API.binaryOp {F : Type} (lib : api.Lib F) (a : API F) (op : binOp F) (now : time.Time)
    (r : http.Request) : Response F × API F :=
  match DecodeJSON lib r with
  | .error err => (WriteProblem http.StatusBadRequest "invalid_json" err, a)
  | .ok req =>
    let pa := parseJSONNumber lib req.A
    let pb := parseJSONNumber lib req.B
    if pa.2 ≠ none ∨ pb.2 ≠ none then
      (WriteProblem http.StatusBadRequest "invalid_json" "a and b must be numbers", a)
    else if (!isFinite lib pa.1 || !isFinite lib pb.1) = true then
      (WriteProblem http.StatusBadRequest "invalid_input" "inputs must be finite numbers", a)
    else
      let out := op a.svc now pa.1 pb.1
      match out.1.2 with
      | some msg => (WriteProblem http.StatusBadRequest "calculation_error" msg, { svc := out.2 })
      | none => (WriteJSON http.StatusOK (.result { Result := out.1.1, Error := "" }),
          { svc := out.2 })

/-- `API.calculateQuery` (lines 91-130). -/
def API.calculateQuery {F : Type} (lib : api.Lib F) (a : API F) (now : time.Time)
    (r : http.Request) : Response F × API F :=
  let q := r.Query
  let op := lib.ToLower (q.Get "op")
  let aStr := q.Get "a"
  let bStr := q.Get "b"
  if op = "" ∨ aStr = "" ∨ bStr = "" then
    (WriteProblem http.StatusBadRequest "missing_params" "op, a, and b are required", a)
  else
    let pa := lib.ParseFloat aStr
    let pb := lib.ParseFloat bStr
    if pa.2 ≠ none ∨ pb.2 ≠ none ∨ (!isFinite lib pa.1) = true ∨ (!isFinite lib pb.1) = true then
      (WriteProblem http.StatusBadRequest "invalid_input" "a and b must be valid finite numbers",
        a)
    else
      let finish (res : F) (err : error) (svc : calcSvc F) : Response F × API F :=
        match err with
        | some msg =>
          (WriteProblem http.StatusBadRequest "calculation_error" msg, { svc := svc })
        | none => (WriteJSON http.StatusOK (.result { Result := res, Error := "" }),
            { svc := svc })
      if op = "add" ∨ op = "+" then
        let out := a.svc.Add lib.toOps now pa.1 pb.1
        finish out.1 none out.2
      else if op = "subtract" ∨ op = "-" then
        let out := a.svc.Subtract lib.toOps now pa.1 pb.1
        finish out.1 none out.2
      else if op = "multiply" ∨ op = "*" ∨ op = "x" then
        let out := a.svc.Multiply lib.toOps now pa.1 pb.1
        finish out.1 none out.2
      else if op = "divide" ∨ op = "/" then
        let out := a.svc.Divide lib.toOps now pa.1 pb.1
        finish out.1.1 out.1.2 out.2
      else
        (WriteProblem http.StatusBadRequest "invalid_op" "use add|subtract|multiply|divide", a)

/-- `API.RegisterRoutes` (lines 19-32): the handler registered for the method
and path of the request, applied to it; `none` when no pattern is registered
for them (the answer of the `http.ServeMux` itself). -/
def API.RegisterRoutes {F : Type} (lib : api.Lib F) (a : API F) (now : time.Time)
    (r : http.Request) : Option (Response F × API F) :=
  if r.Method = "GET" ∧ r.Path = "/health" then
    some (WriteJSON http.StatusOK (.status "ok"), a)
  else if r.Method = "GET" ∧ r.Path = "/v1/history" then some (a.getHistory lib r)
  else if r.Method = "DELETE" ∧ r.Path = "/v1/history" then some a.clearHistory
  else if r.Method = "GET" ∧ r.Path = "/v1/calculate" then some (a.calculateQuery lib now r)
  else if r.Method = "POST" ∧ r.Path = "/v1/add" then
    some (a.binaryOp lib (fun svc now a1 b1 =>
      (((svc.Add lib.toOps now a1 b1).1, none), (svc.Add lib.toOps now a1 b1).2)) now r)
  else if r.Method = "POST" ∧ r.Path = "/v1/subtract" then
    some (a.binaryOp lib (fun svc now a1 b1 =>
      (((svc.Subtract lib.toOps now a1 b1).1, none), (svc.Subtract lib.toOps now a1 b1).2)) now r)
  else if r.Method = "POST" ∧ r.Path = "/v1/multiply" then
    some (a.binaryOp lib (fun svc now a1 b1 =>
      (((svc.Multiply lib.toOps now a1 b1).1, none), (svc.Multiply lib.toOps now a1 b1).2)) now r)
  else if r.Method = "POST" ∧ r.Path = "/v1/divide" then
    some (a.binaryOp lib (fun svc now a1 b1 => svc.Divide lib.toOps now a1 b1) now r)
  else none

/-! ### An instance to evaluate the adapter on -/

/-- A small value domain with the three non-finite values next to the exact
rationals. -/
inductive float64.Value where
  | fin (q : ℚ)
  | posInf
  | negInf
  | nan
  deriving DecidableEq

/-- Exact arithmetic on finite values; with a non-finite argument the sample
operations give `nan`. -/
def float64.Value.lift (f : ℚ → ℚ → ℚ) : float64.Value → float64.Value → float64.Value
  | .fin x, .fin y => .fin (f x y)
  | _, _ => .nan

/-- Division of the sample domain: a finite value over zero is an infinity
(or `nan` for 0/0). -/
def float64.Value.div : float64.Value → float64.Value → float64.Value
  | .fin x, .fin y =>
    if y = 0 then (if x = 0 then .nan else if 0 < x then .posInf else .negInf)
    else .fin (x / y)
  | _, _ => .nan

/-- The value of a non-empty string of decimal digits. -/
def api.sample.digits (cs : List Char) : Option Nat :=
  if cs ≠ [] ∧ cs.all Char.isDigit = true then
    some (cs.foldl (fun n c => 10 * n + (c.toNat - 48)) 0)
  else none

/-- An optional sign followed by decimal digits. -/
def api.sample.integer (s : String) : Option Int :=
  match s.toList with
  | '-' :: cs => (api.sample.digits cs).map (fun n => -(n : Int))
  | '+' :: cs => (api.sample.digits cs).map (fun n => (n : Int))
  | cs => (api.sample.digits cs).map (fun n => (n : Int))

/-- A sample library: integers in decimal, the texts `NaN`, `Inf`, `+Inf`,
`-Inf` and the overflowing `1e309` are parsed as `strconv.ParseFloat` does,
every other text is a syntax error; `Atoi` reads a signed decimal within the
64-bit range; `ToLower` lowers the ASCII letters; `Decode` knows the three
request bodies used in the examples and rejects every other body. -/
def api.sample : api.Lib float64.Value where
  zero := .fin 0
  eqZero := fun x => decide (x = .fin 0)
  add := float64.Value.lift (fun x y => x + y)
  sub := float64.Value.lift (fun x y => x - y)
  mul := float64.Value.lift (fun x y => x * y)
  div := float64.Value.div
  eqZero_zero := by simp
  IsNaN := fun x => decide (x = .nan)
  IsInf := fun x => decide (x = .posInf ∨ x = .negInf)
  ParseFloat := fun s =>
    if s = "NaN" then (.nan, none)
    else if s = "Inf" ∨ s = "+Inf" then (.posInf, none)
    else if s = "-Inf" then (.negInf, none)
    else if s = "1e309" then (.posInf, some .ErrRange)
    else
      match api.sample.integer s with
      | some n => (.fin n, none)
      | none => (.fin 0, some .ErrSyntax)
  Atoi := fun s =>
    match api.sample.integer s with
    | some n =>
      if n < -(2 : Int) ^ 63 then (-(2 : Int) ^ 63, some .ErrRange)
      else if (2 : Int) ^ 63 - 1 < n then ((2 : Int) ^ 63 - 1, some .ErrRange)
      else (n, none)
    | none => (0, some .ErrSyntax)
  ToLower := fun s => String.mk (s.toList.map Char.toLower)
  Decode := fun body =>
    if body = "\x7b\"a\": 5, \"b\": 0\x7d" then .ok ({ A := "5", B := "0" }, false)
    else if body = "\x7b\"a\": 1e309, \"b\": 2\x7d" then .ok ({ A := "1e309", B := "2" }, false)
    else if body = "\x7b\"a\": 1e309\x7d" then .ok ({ A := "1e309", B := "" }, false)
    else .error "invalid request body"

/-- The query of a request with the given keys and single values. -/
def url.Values.ofList (kvs : List (String × String)) : url.Values :=
  fun key => (kvs.filter (fun kv => kv.1 = key)).map (fun kv => kv.2)

/-! ## Vocabulary of the properties -/

/-- The arguments of one `record` call, with the clock reading it takes. -/
structure RecordArgs (F : Type) where
  now : time.Time
  op : String
  a : F
  b : F
  result : F
  err : error

/-- Sequential `record` calls, in order. -/
def calcSvc.recordAll {F : Type} (s : calcSvc F) (rs : List (RecordArgs F)) : calcSvc F :=
  rs.foldl (fun s r => s.record r.now r.op r.a r.b r.result r.err) s

/-- The entries a sequence of `record` calls is expected to create when the
first id is `id`: one per call, in call order, with consecutive ids, the
arguments as given, and the error text (empty when there is no error). -/
def entriesOf {F : Type} : Int → List (RecordArgs F) → List (HistoryEntry F)
  | _, [] => []
  | id, r :: rs =>
    { ID := id, Time := r.now, Op := r.op, A := r.a, B := r.b, Result := r.result,
      Error := r.err.getD "" } :: entriesOf (id + 1) rs

/-- The number of entries `GetHistory` ends up returning: the whole length when
`limit <= 0` or `limit > len`, and `limit` otherwise (lines 119-121). -/
def effectiveLimit (len : Nat) (limit : Int) : Nat :=
  if limit ≤ 0 ∨ limit > (len : Int) then len else limit.toNat

/-- What `binaryOp` (lines 83-87) and `calculateQuery` (lines 125-129) answer
once the service operation has returned `out`: a `calculation_error` problem
when it returned an error, the result otherwise; the adapter then holds the
service after the operation. -/
def API.respond {F : Type} (out : (F × error) × calcSvc F) : Response F × API F :=
  match out.1.2 with
  | some msg => (WriteProblem http.StatusBadRequest "calculation_error" msg, { svc := out.2 })
  | none => (WriteJSON http.StatusOK (.result { Result := out.1.1, Error := "" }),
      { svc := out.2 })

/-- A ledger of capacity 100 holding 51 entries: 51 `record` calls on a fresh
service built with `WithMaxHistory(100)`. -/
def api.sample.ledger51 : calcSvc float64.Value :=
  (NewCalculatorService [WithMaxHistory 100]).recordAll
    (List.replicate 51 ⟨0, "add", .fin 2, .fin 3, .fin 5, none⟩)

/-- The `n` consecutive integers starting at `a`: `a, a+1, ..., a+n-1`. -/
def idsFrom : Int → Nat → List Int
  | _, 0 => []
  | a, n + 1 => a :: idsFrom (a + 1) n

/-- The stored ids are the consecutive integers that end just below the
counter. -/
def calcSvc.Consecutive {F : Type} (s : calcSvc F) : Prop :=
  s.history.map (fun e => e.ID) = idsFrom (s.nextID - s.history.length) s.history.length

/-- Whether a call is one of the four arithmetic operations. -/
def Call.records {F : Type} : Call F → Bool
  | .GetHistory _ => false
  | .ClearHistory => false
  | _ => true

/-- The entry created by the `record` inside a call, if the call records. -/
def calcSvc.recorded {F : Type} (fl : float64.Ops F) (s : calcSvc F) :
    Call F → Option (HistoryEntry F)
  | .Add now a b => some (calcSvc.record.entry s now "add" a b (s.Add fl now a b).1 none)
  | .Subtract now a b =>
    some (calcSvc.record.entry s now "subtract" a b (s.Subtract fl now a b).1 none)
  | .Multiply now a b =>
    some (calcSvc.record.entry s now "multiply" a b (s.Multiply fl now a b).1 none)
  | .Divide now a b =>
    some (calcSvc.record.entry s now "divide" a b (s.Divide fl now a b).1.1
      (s.Divide fl now a b).1.2)
  | .GetHistory _ => none
  | .ClearHistory => none

/-- All entries created during a run, in creation order (whether or not they
are still stored at the end). -/
def calcSvc.issued {F : Type} (fl : float64.Ops F) :
    calcSvc F → List (Call F) → List (HistoryEntry F)
  | _, [] => []
  | s, c :: cs =>
    match s.recorded fl c with
    | some e => e :: calcSvc.issued fl (s.step fl c) cs
    | none => calcSvc.issued fl (s.step fl c) cs

/-! ## Basic facts about the operations -/

section Basics

variable {F : Type}

theorem record_nextID (s : calcSvc F) (now : time.Time) (op : String) (a b result : F)
    (err : error) : (s.record now op a b result err).nextID = s.nextID + 1 := by
  unfold calcSvc.record
  dsimp only
  split <;> rfl

theorem record_maxHistory (s : calcSvc F) (now : time.Time) (op : String) (a b result : F)
    (err : error) : (s.record now op a b result err).maxHistory = s.maxHistory := by
  unfold calcSvc.record
  dsimp only
  split <;> rfl

/-- Both branches of `record` at once: the new entry is appended and the
excess over the capacity is dropped from the front. -/
theorem record_history (s : calcSvc F) (now : time.Time) (op : String) (a b result : F)
    (err : error) (k : Nat) (hk : s.maxHistory = (k : Int)) :
    (s.record now op a b result err).history =
      (s.history ++ [calcSvc.record.entry s now op a b result err]).drop
        (s.history.length + 1 - k) := by
  unfold calcSvc.record
  dsimp only
  split
  · next h =>
    simp only [List.length_append, List.length_singleton, hk] at h ⊢
    congr 1
    omega
  · next h =>
    simp only [List.length_append, List.length_singleton, hk] at h ⊢
    have : s.history.length + 1 - k = 0 := by omega
    rw [this, List.drop_zero]

theorem record_length_le (s : calcSvc F) (now : time.Time) (op : String) (a b result : F)
    (err : error) (h : 0 ≤ s.maxHistory) :
    ((s.record now op a b result err).history.length : Int) ≤ s.maxHistory := by
  obtain ⟨k, hk⟩ := Int.eq_ofNat_of_zero_le h
  rw [record_history s now op a b result err k hk, hk]
  simp only [List.length_drop, List.length_append, List.length_singleton]
  omega

theorem record_entry_ID (s : calcSvc F) (now : time.Time) (op : String) (a b result : F)
    (err : error) : (calcSvc.record.entry s now op a b result err).ID = s.nextID := by
  unfold calcSvc.record.entry
  cases err <;> rfl

theorem getElem?_reverse_index (l : List (HistoryEntry F)) (i : Nat) (h : i < l.length) :
    l[l.length - 1 - i]? = l.reverse[i]? := by
  rw [List.getElem?_reverse h]

/-- The loop of `GetHistory` appends the next `todo` entries of the reversed
history, starting at position `i`. -/
theorem GetHistory_loop_eq (history : List (HistoryEntry F)) :
    ∀ (todo i : Nat) (out : List (HistoryEntry F)), i + todo ≤ history.length →
      calcSvc.GetHistory.loop history todo i out =
        out ++ (history.reverse.drop i).take todo := by
  intro todo
  induction todo with
  | zero => intro i out _; simp [calcSvc.GetHistory.loop]
  | succ todo ih =>
    intro i out h
    have hi : i < history.length := by omega
    have hidx : ((history.length : Int) - 1 - (i : Int)).toNat = history.length - 1 - i := by
      omega
    have hnn : ¬ ((history.length : Int) - 1 - (i : Int) < 0) := by omega
    have hri : i < history.reverse.length := by simpa using hi
    unfold calcSvc.GetHistory.loop
    simp only [hnn, if_false, hidx]
    rw [getElem?_reverse_index history i hi, List.getElem?_eq_getElem hri]
    simp only
    rw [ih (i + 1) _ (by omega), List.drop_eq_getElem_cons hri, List.take_succ_cons]
    simp

/-- The result of `GetHistory` in closed form: the first `effectiveLimit`
entries of the reversed history. -/
theorem GetHistory_eq (s : calcSvc F) (limit : Int) :
    s.GetHistory limit = s.history.reverse.take (effectiveLimit s.history.length limit) := by
  unfold calcSvc.GetHistory effectiveLimit
  dsimp only
  split
  · rw [GetHistory_loop_eq _ _ _ _ (by simp)]
    simp
  · next h =>
    rw [GetHistory_loop_eq _ _ _ _ (by omega)]
    simp

theorem step_maxHistory (fl : float64.Ops F) (s : calcSvc F) (c : Call F) :
    (s.step fl c).maxHistory = s.maxHistory := by
  cases c <;>
    simp only [calcSvc.step, calcSvc.Add, calcSvc.Subtract, calcSvc.Multiply, calcSvc.Divide,
      calcSvc.ClearHistory, record_maxHistory]
  split <;> simp only [record_maxHistory]

theorem run_maxHistory (fl : float64.Ops F) (cs : List (Call F)) :
    ∀ s : calcSvc F, (s.run fl cs).maxHistory = s.maxHistory := by
  induction cs with
  | nil => intro s; rfl
  | cons c cs ih =>
    intro s
    show ((s.step fl c).run fl cs).maxHistory = s.maxHistory
    rw [ih, step_maxHistory]

theorem step_length_le (fl : float64.Ops F) (s : calcSvc F) (c : Call F)
    (hpos : 0 ≤ s.maxHistory) (hlen : (s.history.length : Int) ≤ s.maxHistory) :
    ((s.step fl c).history.length : Int) ≤ s.maxHistory := by
  cases c <;>
    simp only [calcSvc.step, calcSvc.Add, calcSvc.Subtract, calcSvc.Multiply, calcSvc.Divide,
      calcSvc.ClearHistory]
  · exact record_length_le _ _ _ _ _ _ _ hpos
  · exact record_length_le _ _ _ _ _ _ _ hpos
  · exact record_length_le _ _ _ _ _ _ _ hpos
  · split <;> exact record_length_le _ _ _ _ _ _ _ hpos
  · exact hlen
  · simpa using hpos

theorem run_length_le (fl : float64.Ops F) (cs : List (Call F)) :
    ∀ s : calcSvc F, 0 ≤ s.maxHistory → (s.history.length : Int) ≤ s.maxHistory →
      ((s.run fl cs).history.length : Int) ≤ s.maxHistory := by
  induction cs with
  | nil => intro s _ h; exact h
  | cons c cs ih =>
    intro s hpos hlen
    show (((s.step fl c).run fl cs).history.length : Int) ≤ s.maxHistory
    have h1 := step_length_le fl s c hpos hlen
    have h2 := step_maxHistory fl s c
    have := ih (s.step fl c) (by rw [h2]; exact hpos) (by rw [h2]; exact h1)
    rwa [h2] at this

theorem foldl_options_pos (ns : List Int) :
    ∀ c : config, 0 < c.maxHistory →
      0 < ((ns.map WithMaxHistory).foldl (fun cfg opt => opt cfg) c).maxHistory := by
  induction ns with
  | nil => intro c h; exact h
  | cons n ns ih =>
    intro c h
    simp only [List.map_cons, List.foldl_cons]
    apply ih
    unfold WithMaxHistory
    split
    · assumption
    · exact h

theorem NewCalculatorService_maxHistory_pos (ns : List Int) :
    0 < (NewCalculatorService (ns.map WithMaxHistory) : calcSvc F).maxHistory := by
  unfold NewCalculatorService
  exact foldl_options_pos ns _ (by decide)

theorem entriesOf_length (rs : List (RecordArgs F)) :
    ∀ id : Int, (entriesOf id rs).length = rs.length := by
  induction rs with
  | nil => intro id; rfl
  | cons r rs ih => intro id; simp [entriesOf, ih]

theorem record_entry_eq (s : calcSvc F) (r : RecordArgs F) :
    calcSvc.record.entry s r.now r.op r.a r.b r.result r.err =
      { ID := s.nextID, Time := r.now, Op := r.op, A := r.a, B := r.b, Result := r.result,
        Error := r.err.getD "" } := by
  unfold calcSvc.record.entry
  cases r.err <;> rfl

/-- Sequential `record` calls on a state within capacity `k`: the new entries
are appended in order with consecutive ids, and the oldest entries beyond the
capacity are gone. -/
theorem recordAll_eq (k : Nat) (rs : List (RecordArgs F)) :
    ∀ s : calcSvc F, s.maxHistory = (k : Int) → s.history.length ≤ k →
      (s.recordAll rs).history =
          (s.history ++ entriesOf s.nextID rs).drop (s.history.length + rs.length - k)
        ∧ (s.recordAll rs).nextID = s.nextID + rs.length
        ∧ (s.recordAll rs).maxHistory = s.maxHistory := by
  induction rs with
  | nil =>
    intro s _ hlen
    have : s.history.length - k = 0 := by omega
    simp [calcSvc.recordAll, entriesOf, this]
  | cons r rs ih =>
    intro s hk hlen
    have hstep : s.recordAll (r :: rs) =
        (s.record r.now r.op r.a r.b r.result r.err).recordAll rs := rfl
    have hh := record_history s r.now r.op r.a r.b r.result r.err k hk
    have hm := record_maxHistory s r.now r.op r.a r.b r.result r.err
    have hn := record_nextID s r.now r.op r.a r.b r.result r.err
    have hlen1 : (s.record r.now r.op r.a r.b r.result r.err).history.length ≤ k := by
      rw [hh]; simp only [List.length_drop, List.length_append, List.length_singleton]; omega
    obtain ⟨h1, h2, h3⟩ := ih _ (by rw [hm, hk]) hlen1
    rw [hstep]
    refine ⟨?_, ?_, ?_⟩
    · have he : entriesOf s.nextID (r :: rs) =
          calcSvc.record.entry s r.now r.op r.a r.b r.result r.err ::
            entriesOf (s.nextID + 1) rs := by
        rw [record_entry_eq]; rfl
      rw [h1, hn, hh, he]
      generalize calcSvc.record.entry s r.now r.op r.a r.b r.result r.err = e
      have hd : s.history.length + 1 - k ≤ (s.history ++ [e]).length := by
        simp only [List.length_append, List.length_singleton]; omega
      have hX : s.history ++ [e] ++ entriesOf (s.nextID + 1) rs =
          s.history ++ e :: entriesOf (s.nextID + 1) rs := by simp
      rw [← List.drop_append_of_le_length hd, List.drop_drop, hX]
      congr 1
      simp only [List.length_drop, List.length_append, List.length_singleton,
        List.length_cons, List.length_nil]
      omega
    · rw [h2, hn]; simp only [List.length_cons]; push_cast; ring
    · rw [h3, hm]

/-- A freshly built service with one `WithMaxHistory m` option, `m > 0`. -/
theorem NewCalculatorService_WithMaxHistory (m : Int) (hm : 0 < m) :
    (NewCalculatorService [WithMaxHistory m] : calcSvc F) =
      { history := [], nextID := 0, maxHistory := m } := by
  simp [NewCalculatorService, WithMaxHistory, hm]

/-- Sequential `record` calls on a freshly built service. -/
theorem recordAll_fresh (ns : List Int) (rs : List (RecordArgs F)) :
    ((NewCalculatorService (ns.map WithMaxHistory) : calcSvc F).recordAll rs).history =
      (entriesOf 0 rs).drop (rs.length -
        (NewCalculatorService (ns.map WithMaxHistory) : calcSvc F).maxHistory.toNat) := by
  have hpos := NewCalculatorService_maxHistory_pos (F := F) ns
  obtain ⟨k, hk⟩ := Int.eq_ofNat_of_zero_le (le_of_lt hpos)
  have h := (recordAll_eq k rs (NewCalculatorService (ns.map WithMaxHistory) : calcSvc F) hk
    (by show 0 ≤ k; omega)).1
  rw [h, hk]
  have h0 : (NewCalculatorService (ns.map WithMaxHistory) : calcSvc F).history = [] := rfl
  have h1 : (NewCalculatorService (ns.map WithMaxHistory) : calcSvc F).nextID = 0 := rfl
  rw [h0, h1]
  simp

/-- Every call either leaves the stored entries alone, clears them, or is one
`record` of the entry reported by `recorded`. -/
theorem step_cases (fl : float64.Ops F) (s : calcSvc F) (c : Call F) :
    (c.records = false ∧ s.recorded fl c = none
        ∧ (s.step fl c = s ∨ s.step fl c = s.ClearHistory))
    ∨ (c.records = true ∧ ∃ now op a b res err,
        s.recorded fl c = some (calcSvc.record.entry s now op a b res err)
        ∧ s.step fl c = s.record now op a b res err) := by
  cases c with
  | Add now a b => exact Or.inr ⟨rfl, now, "add", a, b, _, none, rfl, rfl⟩
  | Subtract now a b => exact Or.inr ⟨rfl, now, "subtract", a, b, _, none, rfl, rfl⟩
  | Multiply now a b => exact Or.inr ⟨rfl, now, "multiply", a, b, _, none, rfl, rfl⟩
  | Divide now a b =>
    refine Or.inr ⟨rfl, now, "divide", a, b, (s.Divide fl now a b).1.1,
      (s.Divide fl now a b).1.2, rfl, ?_⟩
    simp only [calcSvc.step, calcSvc.Divide]
    split <;> rfl
  | GetHistory limit => exact Or.inl ⟨rfl, rfl, Or.inl rfl⟩
  | ClearHistory => exact Or.inl ⟨rfl, rfl, Or.inr rfl⟩

theorem ClearHistory_nextID (s : calcSvc F) : s.ClearHistory.nextID = s.nextID := rfl

theorem ClearHistory_maxHistory (s : calcSvc F) : s.ClearHistory.maxHistory = s.maxHistory := rfl

theorem ClearHistory_history (s : calcSvc F) : s.ClearHistory.history = [] := rfl

/-- After `record` the stored entries are a suffix of the old ones followed by
the new entry. -/
theorem record_history_drop (s : calcSvc F) (now : time.Time) (op : String) (a b result : F)
    (err : error) :
    ∃ d, (s.record now op a b result err).history =
      (s.history ++ [calcSvc.record.entry s now op a b result err]).drop d := by
  unfold calcSvc.record
  dsimp only
  split
  · exact ⟨_, rfl⟩
  · exact ⟨0, rfl⟩

/-- Every entry created during a run has an id at least the counter at the
start of the run. -/
theorem issued_ID_ge (fl : float64.Ops F) (cs : List (Call F)) :
    ∀ s : calcSvc F, ∀ e ∈ s.issued fl cs, s.nextID ≤ e.ID := by
  induction cs with
  | nil => intro s e he; simp [calcSvc.issued] at he
  | cons c cs ih =>
    intro s e he
    rcases step_cases fl s c with ⟨_, hr, hs⟩ | ⟨_, now, op, a, b, res, err, hr, hs⟩
    · simp only [calcSvc.issued, hr] at he
      have := ih _ e he
      rcases hs with hs | hs <;> rw [hs] at this
      · exact this
      · exact this
    · simp only [calcSvc.issued, hr, List.mem_cons] at he
      rcases he with he | he
      · rw [he, record_entry_ID]
      · have := ih _ e he
        rw [hs, record_nextID] at this
        omega

/-- The ids of the entries created during a run are strictly increasing. -/
theorem issued_ID_pairwise (fl : float64.Ops F) (cs : List (Call F)) :
    ∀ s : calcSvc F, ((s.issued fl cs).map (fun e => e.ID)).Pairwise (fun x y => x < y) := by
  induction cs with
  | nil => intro s; simp [calcSvc.issued]
  | cons c cs ih =>
    intro s
    rcases step_cases fl s c with ⟨_, hr, _⟩ | ⟨_, now, op, a, b, res, err, hr, hs⟩
    · simp only [calcSvc.issued, hr]
      exact ih _
    · simp only [calcSvc.issued, hr, List.map_cons, List.pairwise_cons]
      refine ⟨?_, ih _⟩
      intro y hy
      obtain ⟨e, he, rfl⟩ := List.mem_map.1 hy
      have := issued_ID_ge fl cs _ e he
      rw [hs, record_nextID] at this
      rw [record_entry_ID]
      omega

/-- The counter after a run: it never decreases, and every entry created
during the run has an id below it. -/
theorem issued_ID_lt_run (fl : float64.Ops F) (cs : List (Call F)) :
    ∀ s : calcSvc F, s.nextID ≤ (s.run fl cs).nextID
      ∧ ∀ e ∈ s.issued fl cs, e.ID < (s.run fl cs).nextID := by
  induction cs with
  | nil => intro s; simp [calcSvc.issued, calcSvc.run]
  | cons c cs ih =>
    intro s
    have hrun : s.run fl (c :: cs) = (s.step fl c).run fl cs := rfl
    obtain ⟨h1, h2⟩ := ih (s.step fl c)
    rw [hrun]
    rcases step_cases fl s c with ⟨_, hr, hs⟩ | ⟨_, now, op, a, b, res, err, hr, hs⟩
    · have hn : (s.step fl c).nextID = s.nextID := by
        rcases hs with hs | hs <;> rw [hs]
        rfl
      simp only [calcSvc.issued, hr]
      exact ⟨by omega, h2⟩
    · have hn : (s.step fl c).nextID = s.nextID + 1 := by rw [hs, record_nextID]
      simp only [calcSvc.issued, hr, List.mem_cons]
      refine ⟨by omega, ?_⟩
      intro e he
      rcases he with he | he
      · rw [he, record_entry_ID]; omega
      · exact h2 e he

/-- The entries stored after a run are, in order, among the entries stored
before it followed by those created during it. -/
theorem run_history_sublist (fl : float64.Ops F) (cs : List (Call F)) :
    ∀ s : calcSvc F, ((s.run fl cs).history).Sublist (s.history ++ s.issued fl cs) := by
  induction cs with
  | nil => intro s; simp [calcSvc.issued, calcSvc.run]
  | cons c cs ih =>
    intro s
    have hrun : s.run fl (c :: cs) = (s.step fl c).run fl cs := rfl
    rw [hrun]
    refine (ih (s.step fl c)).trans ?_
    rcases step_cases fl s c with ⟨_, hr, hs⟩ | ⟨_, now, op, a, b, res, err, hr, hs⟩
    · simp only [calcSvc.issued, hr]
      rcases hs with hs | hs
      · rw [hs]
      · rw [hs]
        exact List.Sublist.append (List.nil_sublist _) (List.Sublist.refl _)
    · simp only [calcSvc.issued, hr]
      obtain ⟨d, hd⟩ := record_history_drop s now op a b res err
      rw [hs, hd]
      have : s.history ++ calcSvc.record.entry s now op a b res err ::
          calcSvc.issued fl (s.record now op a b res err) cs
          = (s.history ++ [calcSvc.record.entry s now op a b res err]) ++
            calcSvc.issued fl (s.record now op a b res err) cs := by simp
      rw [this]
      exact List.Sublist.append (List.drop_sublist _ _) (List.Sublist.refl _)

/-- Calls that do not record leave a cleared ledger as it is. -/
theorem run_queries_of_cleared (fl : float64.Ops F) (qs : List (Call F)) :
    ∀ s : calcSvc F, (∀ c ∈ qs, c.records = false) →
      (s.ClearHistory.run fl qs) = s.ClearHistory := by
  induction qs with
  | nil => intro s _; rfl
  | cons c qs ih =>
    intro s hq
    have hrun : s.ClearHistory.run fl (c :: qs) = (s.ClearHistory.step fl c).run fl qs := rfl
    have hc := hq c (List.mem_cons_self _ _)
    have hs : s.ClearHistory.step fl c = s.ClearHistory := by
      cases c with
      | GetHistory limit => rfl
      | ClearHistory => rfl
      | Add => simp [Call.records] at hc
      | Subtract => simp [Call.records] at hc
      | Multiply => simp [Call.records] at hc
      | Divide => simp [Call.records] at hc
    rw [hrun, hs]
    exact ih s (fun c hc => hq c (List.mem_cons_of_mem _ hc))

/-- With a positive capacity the entry just recorded is the newest one
`GetHistory(1)` returns. -/
theorem GetHistory_one_record (s : calcSvc F) (now : time.Time) (op : String) (a b result : F)
    (err : error) (hcap : 0 < s.maxHistory) :
    (s.record now op a b result err).GetHistory 1 =
      [calcSvc.record.entry s now op a b result err] := by
  obtain ⟨k, hk⟩ := Int.eq_ofNat_of_zero_le (le_of_lt hcap)
  have hk1 : 1 ≤ k := by omega
  rw [GetHistory_eq, record_history s now op a b result err k hk]
  have hd : s.history.length + 1 - k ≤ s.history.length := by omega
  rw [List.drop_append_of_le_length hd]
  have hl : (List.drop (s.history.length + 1 - k) s.history ++
      [calcSvc.record.entry s now op a b result err]).length ≥ 1 := by simp
  unfold effectiveLimit
  have hc : ¬ ((1 : Int) ≤ 0 ∨ (1 : Int) > ((List.drop (s.history.length + 1 - k) s.history ++
      [calcSvc.record.entry s now op a b result err]).length : Int)) := by omega
  rw [if_neg hc]
  simp

/-- Both branches of `record` at once, for any capacity: the new entry is
appended and the excess over the capacity is dropped from the front. -/
theorem record_history_exact (s : calcSvc F) (now : time.Time) (op : String) (a b result : F)
    (err : error) :
    (s.record now op a b result err).history =
      (s.history ++ [calcSvc.record.entry s now op a b result err]).drop
        (s.history.length + 1 - s.maxHistory.toNat) := by
  rcases le_or_lt 0 s.maxHistory with h | h
  · obtain ⟨k, hk⟩ := Int.eq_ofNat_of_zero_le h
    rw [record_history s now op a b result err k hk, hk, Int.toNat_ofNat]
  · unfold calcSvc.record
    dsimp only
    have hgt : ((s.history ++ [calcSvc.record.entry s now op a b result err]).length : Int)
        > s.maxHistory := by
      have : (0 : Int) ≤ ((s.history ++
        [calcSvc.record.entry s now op a b result err]).length : Int) := Int.natCast_nonneg _
      omega
    rw [if_pos hgt]
    simp only [List.length_append, List.length_singleton] at hgt ⊢
    have h1 : s.maxHistory.toNat = 0 := by omega
    rw [h1, List.drop_of_length_le, List.drop_of_length_le]
    · simp
    · simp only [List.length_append, List.length_singleton]; omega

theorem step_nextID (fl : float64.Ops F) (s : calcSvc F) (c : Call F) :
    (s.step fl c).nextID = s.nextID + (if c.records = true then 1 else 0) := by
  rcases step_cases fl s c with ⟨hc, _, hs⟩ | ⟨hc, now, op, a, b, res, err, _, hs⟩
  · rw [hc]
    rcases hs with hs | hs
    · rw [hs]; simp
    · rw [hs]; simp [ClearHistory_nextID]
  · rw [hc, hs, record_nextID]; simp

theorem run_nextID (fl : float64.Ops F) (cs : List (Call F)) :
    ∀ s : calcSvc F,
      (s.run fl cs).nextID = s.nextID + (cs.countP (fun c => c.records) : Nat) := by
  induction cs with
  | nil => intro s; simp [calcSvc.run]
  | cons c cs ih =>
    intro s
    have hrun : s.run fl (c :: cs) = (s.step fl c).run fl cs := rfl
    rw [hrun, ih, step_nextID, List.countP_cons]
    split <;> simp_all
    all_goals omega

theorem issued_length (fl : float64.Ops F) (cs : List (Call F)) :
    ∀ s : calcSvc F, (s.issued fl cs).length = cs.countP (fun c => c.records) := by
  induction cs with
  | nil => intro s; simp [calcSvc.issued]
  | cons c cs ih =>
    intro s
    rcases step_cases fl s c with ⟨hc, hr, _⟩ | ⟨hc, now, op, a, b, res, err, hr, _⟩
    · simp only [calcSvc.issued, hr, ih, List.countP_cons, hc]
      simp
    · simp only [calcSvc.issued, hr, ih, List.countP_cons, hc, List.length_cons]
      simp

theorem idsFrom_length (n : Nat) : ∀ a : Int, (idsFrom a n).length = n := by
  induction n with
  | zero => intro a; rfl
  | succ n ih => intro a; simp [idsFrom, ih]

theorem idsFrom_append (n : Nat) : ∀ a : Int, idsFrom a n ++ [a + n] = idsFrom a (n + 1) := by
  induction n with
  | zero => intro a; simp [idsFrom]
  | succ n ih =>
    intro a
    have h := ih (a + 1)
    have e : a + 1 + (n : Int) = a + ((n + 1 : Nat) : Int) := by push_cast; ring
    rw [e] at h
    show a :: (idsFrom (a + 1) n ++ [a + ((n + 1 : Nat) : Int)]) = a :: idsFrom (a + 1) (n + 1)
    rw [h]

theorem idsFrom_drop (d : Nat) :
    ∀ (n : Nat) (a : Int), (idsFrom a n).drop d = idsFrom (a + d) (n - d) := by
  induction d with
  | zero => intro n a; simp
  | succ d ih =>
    intro n a
    cases n with
    | zero => simp [idsFrom]
    | succ n =>
      have e : a + 1 + (d : Int) = a + ((d + 1 : Nat) : Int) := by push_cast; ring
      simp only [idsFrom, List.drop_succ_cons, ih, Nat.add_sub_add_right, e]

theorem idsFrom_getElem? (n : Nat) :
    ∀ (a : Int) (i : Nat), i < n → (idsFrom a n)[i]? = some (a + i) := by
  induction n with
  | zero => intro a i h; omega
  | succ n ih =>
    intro a i h
    cases i with
    | zero => simp [idsFrom]
    | succ i =>
      simp only [idsFrom, List.getElem?_cons_succ]
      rw [ih (a + 1) i (by omega)]
      congr 1
      push_cast; ring

theorem idsFrom_chain (n : Nat) :
    ∀ a : Int, List.Chain' (fun x y => y = x + 1) (idsFrom a n) := by
  induction n with
  | zero => intro a; simp [idsFrom]
  | succ n ih =>
    intro a
    cases n with
    | zero => simp [idsFrom]
    | succ n =>
      have h := ih (a + 1)
      simp only [idsFrom] at h ⊢
      exact List.Chain'.cons rfl h

theorem idsFrom_getLast? (n : Nat) (a : Int) :
    (idsFrom a (n + 1)).getLast? = some (a + n) := by
  rw [← idsFrom_append, List.getLast?_append]
  simp

/-- The ids of the entries created during a run are consecutive from the
counter at its start. -/
theorem issued_ID_eq (fl : float64.Ops F) (cs : List (Call F)) :
    ∀ s : calcSvc F,
      (s.issued fl cs).map (fun e => e.ID) = idsFrom s.nextID (cs.countP (fun c => c.records)) := by
  induction cs with
  | nil => intro s; simp [calcSvc.issued, idsFrom]
  | cons c cs ih =>
    intro s
    rcases step_cases fl s c with ⟨hc, hr, hs⟩ | ⟨hc, now, op, a, b, res, err, hr, hs⟩
    · have hn : (s.step fl c).nextID = s.nextID := by
        rcases hs with hs | hs <;> rw [hs]
        rfl
      simp only [calcSvc.issued, hr, ih, List.countP_cons, hc, hn]
      simp
    · have hn : (s.step fl c).nextID = s.nextID + 1 := by rw [hs, record_nextID]
      simp only [calcSvc.issued, hr, ih, List.countP_cons, hc, hn, List.map_cons,
        record_entry_ID]
      simp [idsFrom]

theorem record_Consecutive (s : calcSvc F) (now : time.Time) (op : String) (a b result : F)
    (err : error) (h : s.Consecutive) : (s.record now op a b result err).Consecutive := by
  unfold calcSvc.Consecutive at h ⊢
  rw [record_nextID, record_history_exact]
  have hd : s.history.length + 1 - s.maxHistory.toNat ≤ s.history.length + 1 := by omega
  generalize s.history.length + 1 - s.maxHistory.toNat = d at hd
  simp only [List.map_drop, List.map_append, List.map_cons, List.map_nil, record_entry_ID,
    List.length_drop, List.length_append, List.length_singleton]
  rw [h]
  have hap := idsFrom_append s.history.length (s.nextID - (s.history.length : Int))
  rw [sub_add_cancel] at hap
  rw [hap, idsFrom_drop]
  congr 1
  omega

theorem step_Consecutive (fl : float64.Ops F) (s : calcSvc F) (c : Call F)
    (h : s.Consecutive) : (s.step fl c).Consecutive := by
  rcases step_cases fl s c with ⟨_, _, hs⟩ | ⟨_, now, op, a, b, res, err, _, hs⟩
  · rcases hs with hs | hs
    · rw [hs]; exact h
    · rw [hs]; simp [calcSvc.Consecutive, calcSvc.ClearHistory, idsFrom]
  · rw [hs]; exact record_Consecutive s now op a b res err h

theorem run_Consecutive (fl : float64.Ops F) (cs : List (Call F)) :
    ∀ s : calcSvc F, s.Consecutive → (s.run fl cs).Consecutive := by
  induction cs with
  | nil => intro s h; exact h
  | cons c cs ih => intro s h; exact ih _ (step_Consecutive fl s c h)

/-- `binaryOp` on a request that decodes, whose numbers parse and are finite:
the operation is applied to the two parsed values and its outcome answered. -/
theorem binaryOp_finite (lib : api.Lib F) (a : API F) (op : binOp F) (now : time.Time)
    (r : http.Request) (req : calcRequest) (hdec : DecodeJSON lib r = .ok req)
    (hpa : (parseJSONNumber lib req.A).2 = none) (hpb : (parseJSONNumber lib req.B).2 = none)
    (hfa : isFinite lib (parseJSONNumber lib req.A).1 = true)
    (hfb : isFinite lib (parseJSONNumber lib req.B).1 = true) :
    a.binaryOp lib op now r =
      API.respond (op a.svc now (parseJSONNumber lib req.A).1 (parseJSONNumber lib req.B).1) := by
  unfold API.binaryOp API.respond
  rw [hdec]
  simp only [hpa, hpb, hfa, hfb]
  simp

/-- `binaryOp` on a request that decodes and whose numbers parse, one of them
not finite: rejected as `invalid_input` whatever the operation is. -/
theorem binaryOp_nonfinite (lib : api.Lib F) (a : API F) (op : binOp F) (now : time.Time)
    (r : http.Request) (req : calcRequest) (hdec : DecodeJSON lib r = .ok req)
    (hpa : (parseJSONNumber lib req.A).2 = none) (hpb : (parseJSONNumber lib req.B).2 = none)
    (hnf : isFinite lib (parseJSONNumber lib req.A).1 = false
      ∨ isFinite lib (parseJSONNumber lib req.B).1 = false) :
    a.binaryOp lib op now r =
      (WriteProblem 400 "invalid_input" "inputs must be finite numbers", a) := by
  unfold API.binaryOp
  rw [hdec]
  simp only [hpa, hpb]
  rcases hnf with h | h <;> simp [h, http.StatusBadRequest]

/-- `binaryOp` either rejects the request with a problem, without using the
operation, or applies the operation to two finite values. -/
theorem binaryOp_cases (lib : api.Lib F) (a : API F) (now : time.Time) (r : http.Request) :
    (∃ title detail, ∀ op : binOp F,
        a.binaryOp lib op now r = (WriteProblem 400 title detail, a))
    ∨ (∃ av bv, isFinite lib av = true ∧ isFinite lib bv = true ∧ ∀ op : binOp F,
        a.binaryOp lib op now r = API.respond (op a.svc now av bv)) := by
  cases hdec : DecodeJSON lib r with
  | error err =>
    refine Or.inl ⟨"invalid_json", err, fun op => ?_⟩
    unfold API.binaryOp
    rw [hdec]; rfl
  | ok req =>
    by_cases hp : (parseJSONNumber lib req.A).2 ≠ none ∨ (parseJSONNumber lib req.B).2 ≠ none
    · refine Or.inl ⟨"invalid_json", "a and b must be numbers", fun op => ?_⟩
      unfold API.binaryOp
      rw [hdec]
      simp only [if_pos hp]; rfl
    · have hpa : (parseJSONNumber lib req.A).2 = none := by
        by_contra h; exact hp (Or.inl h)
      have hpb : (parseJSONNumber lib req.B).2 = none := by
        by_contra h; exact hp (Or.inr h)
      cases hfa : isFinite lib (parseJSONNumber lib req.A).1 with
      | false =>
        exact Or.inl ⟨_, _, fun op =>
          binaryOp_nonfinite lib a op now r req hdec hpa hpb (Or.inl hfa)⟩
      | true =>
        cases hfb : isFinite lib (parseJSONNumber lib req.B).1 with
        | false =>
          exact Or.inl ⟨_, _, fun op =>
            binaryOp_nonfinite lib a op now r req hdec hpa hpb (Or.inr hfb)⟩
        | true =>
          exact Or.inr ⟨_, _, hfa, hfb, fun op =>
            binaryOp_finite lib a op now r req hdec hpa hpb hfa hfb⟩

/-- `calculateQuery` once the three parameters are present and the two numbers
parse and are finite: only the operator decides. -/
theorem calculateQuery_finite (lib : api.Lib F) (a : API F) (now : time.Time)
    (r : http.Request) (hop : lib.ToLower (r.Query.Get "op") ≠ "")
    (ha : r.Query.Get "a" ≠ "") (hb : r.Query.Get "b" ≠ "")
    (hpa : (lib.ParseFloat (r.Query.Get "a")).2 = none)
    (hpb : (lib.ParseFloat (r.Query.Get "b")).2 = none)
    (hfa : isFinite lib (lib.ParseFloat (r.Query.Get "a")).1 = true)
    (hfb : isFinite lib (lib.ParseFloat (r.Query.Get "b")).1 = true) :
    a.calculateQuery lib now r =
      (if lib.ToLower (r.Query.Get "op") = "add" ∨ lib.ToLower (r.Query.Get "op") = "+" then
        API.respond (((a.svc.Add lib.toOps now (lib.ParseFloat (r.Query.Get "a")).1
            (lib.ParseFloat (r.Query.Get "b")).1).1, none),
          (a.svc.Add lib.toOps now (lib.ParseFloat (r.Query.Get "a")).1
            (lib.ParseFloat (r.Query.Get "b")).1).2)
      else if lib.ToLower (r.Query.Get "op") = "subtract"
          ∨ lib.ToLower (r.Query.Get "op") = "-" then
        API.respond (((a.svc.Subtract lib.toOps now (lib.ParseFloat (r.Query.Get "a")).1
            (lib.ParseFloat (r.Query.Get "b")).1).1, none),
          (a.svc.Subtract lib.toOps now (lib.ParseFloat (r.Query.Get "a")).1
            (lib.ParseFloat (r.Query.Get "b")).1).2)
      else if lib.ToLower (r.Query.Get "op") = "multiply"
          ∨ lib.ToLower (r.Query.Get "op") = "*" ∨ lib.ToLower (r.Query.Get "op") = "x" then
        API.respond (((a.svc.Multiply lib.toOps now (lib.ParseFloat (r.Query.Get "a")).1
            (lib.ParseFloat (r.Query.Get "b")).1).1, none),
          (a.svc.Multiply lib.toOps now (lib.ParseFloat (r.Query.Get "a")).1
            (lib.ParseFloat (r.Query.Get "b")).1).2)
      else if lib.ToLower (r.Query.Get "op") = "divide"
          ∨ lib.ToLower (r.Query.Get "op") = "/" then
        API.respond (a.svc.Divide lib.toOps now (lib.ParseFloat (r.Query.Get "a")).1
          (lib.ParseFloat (r.Query.Get "b")).1)
      else (WriteProblem 400 "invalid_op" "use add|subtract|multiply|divide", a)) := by
  unfold API.calculateQuery API.respond
  simp only [hop, ha, hb, hpa, hpb, hfa, hfb, false_or, if_false, ne_eq, not_true_eq_false,
    Bool.not_true, Bool.false_eq_true, or_self]
  rfl

/-- `calculateQuery` with a missing parameter, a number that does not parse or
a value that is not finite: rejected with a problem, the adapter unchanged. -/
theorem calculateQuery_rejected (lib : api.Lib F) (a : API F) (now : time.Time)
    (r : http.Request)
    (h : ¬ (lib.ToLower (r.Query.Get "op") ≠ "" ∧ r.Query.Get "a" ≠ "" ∧ r.Query.Get "b" ≠ ""
      ∧ (lib.ParseFloat (r.Query.Get "a")).2 = none
      ∧ (lib.ParseFloat (r.Query.Get "b")).2 = none
      ∧ isFinite lib (lib.ParseFloat (r.Query.Get "a")).1 = true
      ∧ isFinite lib (lib.ParseFloat (r.Query.Get "b")).1 = true)) :
    a.calculateQuery lib now r
        = (WriteProblem 400 "missing_params" "op, a, and b are required", a)
    ∨ a.calculateQuery lib now r
        = (WriteProblem 400 "invalid_input" "a and b must be valid finite numbers", a) := by
  unfold API.calculateQuery
  by_cases hm : lib.ToLower (r.Query.Get "op") = "" ∨ r.Query.Get "a" = "" ∨ r.Query.Get "b" = ""
  · left
    simp only [if_pos hm]; rfl
  · right
    simp only [if_neg hm]
    have hc : (lib.ParseFloat (r.Query.Get "a")).2 ≠ none
        ∨ (lib.ParseFloat (r.Query.Get "b")).2 ≠ none
        ∨ (!isFinite lib (lib.ParseFloat (r.Query.Get "a")).1) = true
        ∨ (!isFinite lib (lib.ParseFloat (r.Query.Get "b")).1) = true := by
      by_contra hcon
      apply h
      simp only [not_or, ne_eq, not_not, Bool.not_eq_true', Bool.not_eq_false] at hcon hm
      exact ⟨hm.1, hm.2.1, hm.2.2, hcon.1, hcon.2.1, hcon.2.2.1, hcon.2.2.2⟩
    simp only [if_pos hc]; rfl

/-- `calculateQuery` either rejects the request with a problem, the adapter
unchanged, or calls exactly one service operation, on two finite values. -/
theorem calculateQuery_cases (lib : api.Lib F) (a : API F) (now : time.Time)
    (r : http.Request) :
    (∃ title detail, a.calculateQuery lib now r = (WriteProblem 400 title detail, a))
    ∨ (∃ av bv, isFinite lib av = true ∧ isFinite lib bv = true
        ∧ (a.calculateQuery lib now r
              = API.respond (((a.svc.Add lib.toOps now av bv).1, none),
                  (a.svc.Add lib.toOps now av bv).2)
          ∨ a.calculateQuery lib now r
              = API.respond (((a.svc.Subtract lib.toOps now av bv).1, none),
                  (a.svc.Subtract lib.toOps now av bv).2)
          ∨ a.calculateQuery lib now r
              = API.respond (((a.svc.Multiply lib.toOps now av bv).1, none),
                  (a.svc.Multiply lib.toOps now av bv).2)
          ∨ a.calculateQuery lib now r = API.respond (a.svc.Divide lib.toOps now av bv))) := by
  by_cases h : lib.ToLower (r.Query.Get "op") ≠ "" ∧ r.Query.Get "a" ≠ "" ∧ r.Query.Get "b" ≠ ""
      ∧ (lib.ParseFloat (r.Query.Get "a")).2 = none
      ∧ (lib.ParseFloat (r.Query.Get "b")).2 = none
      ∧ isFinite lib (lib.ParseFloat (r.Query.Get "a")).1 = true
      ∧ isFinite lib (lib.ParseFloat (r.Query.Get "b")).1 = true
  · obtain ⟨hop, ha, hb, hpa, hpb, hfa, hfb⟩ := h
    have e := calculateQuery_finite lib a now r hop ha hb hpa hpb hfa hfb
    split at e
    · exact Or.inr ⟨_, _, hfa, hfb, Or.inl e⟩
    · split at e
      · exact Or.inr ⟨_, _, hfa, hfb, Or.inr (Or.inl e)⟩
      · split at e
        · exact Or.inr ⟨_, _, hfa, hfb, Or.inr (Or.inr (Or.inl e))⟩
        · split at e
          · exact Or.inr ⟨_, _, hfa, hfb, Or.inr (Or.inr (Or.inr e))⟩
          · exact Or.inl ⟨_, _, e⟩
  · rcases calculateQuery_rejected lib a now r h with e | e
    · exact Or.inl ⟨_, _, e⟩
    · exact Or.inl ⟨_, _, e⟩

/-- Folding the options over a configuration: the last positive `n` wins, and
without one the configuration keeps its capacity. -/
theorem foldl_options_eq (ns : List Int) :
    ∀ c : config,
      ((ns.map WithMaxHistory).foldl (fun cfg opt => opt cfg) c).maxHistory
        = ((ns.filter (fun n => decide (0 < n))).getLast?).getD c.maxHistory := by
  induction ns with
  | nil => intro c; rfl
  | cons n ns ih =>
    intro c
    simp only [List.map_cons, List.foldl_cons]
    rw [ih]
    by_cases hn : 0 < n
    · have hw : WithMaxHistory n c = { maxHistory := n } := by
        simp [WithMaxHistory, hn]
      rw [hw, List.filter_cons_of_pos (by simpa using hn), List.getLast?_cons]
      rfl
    · have hw : WithMaxHistory n c = c := by
        simp [WithMaxHistory, hn]
      rw [hw, List.filter_cons_of_neg (by simpa using hn)]

theorem respond_svc (out : (F × error) × calcSvc F) : (API.respond out).2.svc = out.2 := by
  unfold API.respond
  cases out.1.2 <;> rfl

end Basics

/-! ## The claims -/

section Claims

variable {F : Type}

/-- C1. Capacity invariant: for a service built by `NewCalculatorService` with
any list of `WithMaxHistory` options and any finite sequence of `Add`,
`Subtract`, `Multiply`, `Divide`, `GetHistory` and `ClearHistory` calls, after
each call (after the first `k` calls, for every `k`) the number of stored
entries is at most the `maxHistory` of the service, which is still the one it
was built with. -/
theorem C1_capacity_invariant (fl : float64.Ops F) (ns : List Int) (calls : List (Call F))
    (k : Nat) :
    ((((NewCalculatorService (ns.map WithMaxHistory) : calcSvc F).run fl
        (calls.take k)).history.length : Int)
      ≤ ((NewCalculatorService (ns.map WithMaxHistory) : calcSvc F).run fl
        (calls.take k)).maxHistory)
    ∧ ((NewCalculatorService (ns.map WithMaxHistory) : calcSvc F).run fl
        (calls.take k)).maxHistory
      = (NewCalculatorService (ns.map WithMaxHistory) : calcSvc F).maxHistory := by
  have hpos := NewCalculatorService_maxHistory_pos (F := F) ns
  refine ⟨?_, run_maxHistory fl _ _⟩
  rw [run_maxHistory]
  apply run_length_le fl _ _ (le_of_lt hpos)
  have : (NewCalculatorService (ns.map WithMaxHistory) : calcSvc F).history = [] := rfl
  rw [this]
  simpa using le_of_lt hpos

/-- C2. FIFO eviction: for every capacity `m > 0` and every sequence of `n`
`record` calls on a fresh ledger of capacity `m`, the stored entries are
exactly the last `min n m` entries recorded, unchanged and in recording order
(so there are `min n m` of them); and with `m = 3` and 5 records the retained
entries are the 3rd, 4th and 5th, which `GetHistory(10)` returns as 5th, 4th,
3rd. -/
theorem C2_fifo_eviction (m : Int) (hm : 0 < m) (rs : List (RecordArgs F)) :
    (((NewCalculatorService [WithMaxHistory m] : calcSvc F).recordAll rs).history
        = (entriesOf 0 rs).drop (rs.length - min rs.length m.toNat))
    ∧ (((NewCalculatorService [WithMaxHistory m] : calcSvc F).recordAll rs).history.length
        = min rs.length m.toNat)
    ∧ (∀ r1 r2 r3 r4 r5 : RecordArgs F,
        ((NewCalculatorService [WithMaxHistory 3] : calcSvc F).recordAll
            [r1, r2, r3, r4, r5]).history
          = [ { ID := 2, Time := r3.now, Op := r3.op, A := r3.a, B := r3.b,
                Result := r3.result, Error := r3.err.getD "" },
              { ID := 3, Time := r4.now, Op := r4.op, A := r4.a, B := r4.b,
                Result := r4.result, Error := r4.err.getD "" },
              { ID := 4, Time := r5.now, Op := r5.op, A := r5.a, B := r5.b,
                Result := r5.result, Error := r5.err.getD "" } ]
        ∧ ((NewCalculatorService [WithMaxHistory 3] : calcSvc F).recordAll
            [r1, r2, r3, r4, r5]).GetHistory 10
          = [ { ID := 4, Time := r5.now, Op := r5.op, A := r5.a, B := r5.b,
                Result := r5.result, Error := r5.err.getD "" },
              { ID := 3, Time := r4.now, Op := r4.op, A := r4.a, B := r4.b,
                Result := r4.result, Error := r4.err.getD "" },
              { ID := 2, Time := r3.now, Op := r3.op, A := r3.a, B := r3.b,
                Result := r3.result, Error := r3.err.getD "" } ]) := by
  have gen : ∀ (m : Int) (rs : List (RecordArgs F)), 0 < m →
      ((NewCalculatorService [WithMaxHistory m] : calcSvc F).recordAll rs).history
        = (entriesOf 0 rs).drop (rs.length - min rs.length m.toNat) := by
    intro m rs hm
    have h := recordAll_fresh (F := F) [m] rs
    simp only [List.map_cons, List.map_nil] at h
    rw [h, NewCalculatorService_WithMaxHistory m hm]
    show (entriesOf 0 rs).drop (rs.length - m.toNat) = _
    congr 1
    omega
  refine ⟨gen m rs hm, ?_, ?_⟩
  · rw [gen m rs hm, List.length_drop, entriesOf_length]
    omega
  · intro r1 r2 r3 r4 r5
    have h := gen 3 [r1, r2, r3, r4, r5] (by decide)
    have hl : ((NewCalculatorService [WithMaxHistory 3] : calcSvc F).recordAll
        [r1, r2, r3, r4, r5]).history
          = [ { ID := 2, Time := r3.now, Op := r3.op, A := r3.a, B := r3.b,
                Result := r3.result, Error := r3.err.getD "" },
              { ID := 3, Time := r4.now, Op := r4.op, A := r4.a, B := r4.b,
                Result := r4.result, Error := r4.err.getD "" },
              { ID := 4, Time := r5.now, Op := r5.op, A := r5.a, B := r5.b,
                Result := r5.result, Error := r5.err.getD "" } ] := by
      rw [h]; rfl
    refine ⟨hl, ?_⟩
    rw [GetHistory_eq, hl]
    rfl

/-- C2 at a concrete input: capacity 3 and five records over exact arithmetic. -/
theorem C2_fifo_eviction_witness :
    (0 : Int) < 3 ∧
    ((NewCalculatorService [WithMaxHistory 3] : calcSvc ℚ).recordAll
        [⟨10, "add", 0, 0, 0, none⟩, ⟨11, "add", 1, 0, 1, none⟩, ⟨12, "add", 2, 0, 2, none⟩,
         ⟨13, "add", 3, 0, 3, none⟩, ⟨14, "add", 4, 0, 4, none⟩]).history
      = [⟨2, 12, "add", 2, 0, 2, ""⟩, ⟨3, 13, "add", 3, 0, 3, ""⟩, ⟨4, 14, "add", 4, 0, 4, ""⟩] :=
  ⟨by decide, (C2_fifo_eviction (F := ℚ) 3 (by decide)
    [⟨10, "add", 0, 0, 0, none⟩, ⟨11, "add", 1, 0, 1, none⟩, ⟨12, "add", 2, 0, 2, none⟩,
     ⟨13, "add", 3, 0, 3, none⟩, ⟨14, "add", 4, 0, 4, none⟩]).1⟩

/-- C3. Ordering and limit: after `N` sequential `record` calls on a fresh
ledger with `N <= maxHistory`, `GetHistory(N)` returns the `N` entries in exact
reverse of insertion order, and for every `k` with `1 <= k < N`,
`GetHistory(k)` returns exactly `k` entries, the last `k` recorded, newest
first; and after the adds (1,2), (2,3), (3,4) on a default service,
`GetHistory(2)` is the entry of (3,4) with result 7, then the entry of (2,3)
with result 5. -/
theorem C3_ordering_and_limit (ns : List Int) (rs : List (RecordArgs F))
    (hN : (rs.length : Int)
      ≤ (NewCalculatorService (ns.map WithMaxHistory) : calcSvc F).maxHistory) :
    (((NewCalculatorService (ns.map WithMaxHistory) : calcSvc F).recordAll rs).GetHistory
        (rs.length : Int) = (entriesOf 0 rs).reverse)
    ∧ (∀ k : Nat, 1 ≤ k → k < rs.length →
        (((NewCalculatorService (ns.map WithMaxHistory) : calcSvc F).recordAll rs).GetHistory
            (k : Int)).length = k
        ∧ ((NewCalculatorService (ns.map WithMaxHistory) : calcSvc F).recordAll rs).GetHistory
            (k : Int) = ((entriesOf 0 rs).drop (rs.length - k)).reverse)
    ∧ (∀ t1 t2 t3 : time.Time,
        ((NewCalculatorService [] : calcSvc ℚ).run float64.exact
            [.Add t1 1 2, .Add t2 2 3, .Add t3 3 4]).GetHistory 2
          = [⟨2, t3, "add", 3, 4, 7, ""⟩, ⟨1, t2, "add", 2, 3, 5, ""⟩]) := by
  have hh : ((NewCalculatorService (ns.map WithMaxHistory) : calcSvc F).recordAll rs).history
      = entriesOf 0 rs := by
    rw [recordAll_fresh]
    have : rs.length
        - (NewCalculatorService (ns.map WithMaxHistory) : calcSvc F).maxHistory.toNat = 0 := by
      omega
    rw [this, List.drop_zero]
  refine ⟨?_, ?_, ?_⟩
  · rw [GetHistory_eq, hh, entriesOf_length]
    unfold effectiveLimit
    split
    · simp [entriesOf_length]
    · simp [entriesOf_length]
  · intro k hk1 hk2
    have e : ((NewCalculatorService (ns.map WithMaxHistory) : calcSvc F).recordAll
        rs).GetHistory (k : Int) = ((entriesOf 0 rs).drop (rs.length - k)).reverse := by
      rw [GetHistory_eq, hh, entriesOf_length]
      unfold effectiveLimit
      have hc : ¬ ((k : Int) ≤ 0 ∨ (k : Int) > (rs.length : Int)) := by omega
      rw [if_neg hc, List.take_reverse, entriesOf_length, Int.toNat_ofNat]
    refine ⟨?_, e⟩
    rw [e, List.length_reverse, List.length_drop, entriesOf_length]
    omega
  · intro t1 t2 t3
    rw [GetHistory_eq]
    simp [calcSvc.run, calcSvc.step, calcSvc.Add, calculator.Add, float64.exact,
      NewCalculatorService, calcSvc.record, calcSvc.record.entry, effectiveLimit]
    norm_num

/-- C3 at a concrete input: three records on a service of capacity 100. -/
theorem C3_ordering_and_limit_witness :
    ((3 : Int) ≤ (NewCalculatorService ([100].map WithMaxHistory) : calcSvc ℚ).maxHistory) ∧
    ((NewCalculatorService ([100].map WithMaxHistory) : calcSvc ℚ).recordAll
        [⟨10, "add", 1, 2, 3, none⟩, ⟨11, "add", 2, 3, 5, none⟩,
         ⟨12, "add", 3, 4, 7, none⟩]).GetHistory 3
      = [⟨2, 12, "add", 3, 4, 7, ""⟩, ⟨1, 11, "add", 2, 3, 5, ""⟩, ⟨0, 10, "add", 1, 2, 3, ""⟩] :=
  ⟨by decide, (C3_ordering_and_limit (F := ℚ) [100]
    [⟨10, "add", 1, 2, 3, none⟩, ⟨11, "add", 2, 3, 5, none⟩, ⟨12, "add", 3, 4, 7, none⟩]
    (by decide)).1⟩

/-- C4. For every ledger state and every limit that is `<= 0` or greater than
the number of stored entries, `GetHistory(limit)` returns all stored entries,
each exactly once, newest first: the reverse of the stored sequence. -/
theorem C4_getHistory_all (s : calcSvc F) (limit : Int)
    (h : limit ≤ 0 ∨ limit > (s.history.length : Int)) :
    s.GetHistory limit = s.history.reverse
    ∧ (s.GetHistory limit).length = s.history.length
    ∧ (s.GetHistory limit).Perm s.history := by
  have e : s.GetHistory limit = s.history.reverse := by
    rw [GetHistory_eq]
    unfold effectiveLimit
    rw [if_pos h]
    simp
  rw [e]
  exact ⟨rfl, List.length_reverse _, List.reverse_perm _⟩

/-- C4 at a concrete input: two stored entries, limit 0. -/
theorem C4_getHistory_all_witness :
    ((0 : Int) ≤ 0 ∨ (0 : Int) > 2) ∧
    (({ history := [⟨0, 10, "add", 1, 2, 3, ""⟩, ⟨1, 11, "multiply", 3, 4, 12, ""⟩],
        nextID := 2, maxHistory := 100 } : calcSvc ℚ).GetHistory 0)
      = [⟨1, 11, "multiply", 3, 4, 12, ""⟩, ⟨0, 10, "add", 1, 2, 3, ""⟩] :=
  ⟨by decide, (C4_getHistory_all (F := ℚ)
    { history := [⟨0, 10, "add", 1, 2, 3, ""⟩, ⟨1, 11, "multiply", 3, 4, 12, ""⟩],
      nextID := 2, maxHistory := 100 } 0 (by decide)).1⟩

/-- C5. Id monotonicity and non-reuse: over any sequence of operations on a
built service (evictions and `ClearHistory` calls included), the ids given to
the newly recorded entries are strictly increasing in the order they are
issued (each is greater than every id issued earlier), so no id is issued
twice; the stored entries are, in order, among the issued ones, and their ids
are strictly increasing in storage order. -/
theorem C5_id_monotonic (fl : float64.Ops F) (ns : List Int) (calls : List (Call F)) :
    (((NewCalculatorService (ns.map WithMaxHistory) : calcSvc F).issued fl calls).map
        (fun e => e.ID)).Pairwise (fun x y => x < y)
    ∧ (((NewCalculatorService (ns.map WithMaxHistory) : calcSvc F).issued fl calls).map
        (fun e => e.ID)).Nodup
    ∧ (((NewCalculatorService (ns.map WithMaxHistory) : calcSvc F).run fl calls).history).Sublist
        ((NewCalculatorService (ns.map WithMaxHistory) : calcSvc F).issued fl calls)
    ∧ ((((NewCalculatorService (ns.map WithMaxHistory) : calcSvc F).run fl calls).history).map
        (fun e => e.ID)).Pairwise (fun x y => x < y) := by
  have hp := issued_ID_pairwise fl calls (NewCalculatorService (ns.map WithMaxHistory))
  have hs := run_history_sublist fl calls
    (NewCalculatorService (ns.map WithMaxHistory) : calcSvc F)
  have h0 : (NewCalculatorService (ns.map WithMaxHistory) : calcSvc F).history = [] := rfl
  rw [h0, List.nil_append] at hs
  refine ⟨hp, ?_, hs, ?_⟩
  · exact hp.imp (fun h => ne_of_lt h)
  · exact hp.sublist (hs.map _)

/-- C6. `ClearHistory` changes only the stored entries: the next-id counter
and `maxHistory` are unchanged, so the entry recorded right after a clear is
the one (same id) that would have been created had the clear not happened; and
on a built service that id is greater than, hence different from, every id
issued before the clear. -/
theorem C6_clear_frame (fl : float64.Ops F) (s : calcSvc F) (ns : List Int)
    (calls : List (Call F)) (now : time.Time) (op : String) (a b res : F) (err : error) :
    s.ClearHistory.nextID = s.nextID
    ∧ s.ClearHistory.maxHistory = s.maxHistory
    ∧ s.ClearHistory.history = []
    ∧ calcSvc.record.entry s.ClearHistory now op a b res err
        = calcSvc.record.entry s now op a b res err
    ∧ (calcSvc.record.entry s.ClearHistory now op a b res err).ID = s.nextID
    ∧ (∀ c : Call F, s.ClearHistory.recorded fl c = s.recorded fl c)
    ∧ (∀ e ∈ (NewCalculatorService (ns.map WithMaxHistory) : calcSvc F).issued fl calls,
        e.ID < (calcSvc.record.entry
          ((NewCalculatorService (ns.map WithMaxHistory) : calcSvc F).run fl
            calls).ClearHistory now op a b res err).ID)
    ∧ (calcSvc.record.entry
          ((NewCalculatorService (ns.map WithMaxHistory) : calcSvc F).run fl
            calls).ClearHistory now op a b res err).ID
        ∉ ((NewCalculatorService (ns.map WithMaxHistory) : calcSvc F).issued fl calls).map
            (fun e => e.ID) := by
  have hlt : ∀ e ∈ (NewCalculatorService (ns.map WithMaxHistory) : calcSvc F).issued fl calls,
      e.ID < (calcSvc.record.entry
        ((NewCalculatorService (ns.map WithMaxHistory) : calcSvc F).run fl
          calls).ClearHistory now op a b res err).ID := by
    intro e he
    rw [record_entry_ID, ClearHistory_nextID]
    exact (issued_ID_lt_run fl calls _).2 e he
  refine ⟨rfl, rfl, rfl, ?_, ?_, ?_, hlt, ?_⟩
  · unfold calcSvc.record.entry
    cases err <;> rfl
  · rw [record_entry_ID, ClearHistory_nextID]
  · intro c
    cases c with
    | Divide now a b =>
      simp only [calcSvc.recorded, calcSvc.Divide]
      split
      · unfold calcSvc.record.entry; rfl
      · unfold calcSvc.record.entry; cases (calculator.Divide fl a b).2 <;> rfl
    | _ => rfl
  · intro hmem
    obtain ⟨e, he, heq⟩ := List.mem_map.1 hmem
    have := hlt e he
    omega

/-- C7. For every ledger state, after `ClearHistory` the ledger holds no
entries and `GetHistory(limit)` is empty for every integer limit, and this
stays so through any further calls that are not arithmetic operations
(`GetHistory`, `ClearHistory`). -/
theorem C7_clear_then_empty (fl : float64.Ops F) (s : calcSvc F) (qs : List (Call F))
    (hq : ∀ c ∈ qs, c.records = false) (limit : Int) :
    s.ClearHistory.history = []
    ∧ s.ClearHistory.GetHistory limit = []
    ∧ (s.ClearHistory.run fl qs).history = []
    ∧ (s.ClearHistory.run fl qs).GetHistory limit = [] := by
  have hg : s.ClearHistory.GetHistory limit = [] := by
    rw [GetHistory_eq, ClearHistory_history]; simp
  rw [run_queries_of_cleared fl qs s hq]
  exact ⟨rfl, hg, rfl, hg⟩

/-- C7 at a concrete input: a ledger with one entry, cleared, then queried and
cleared again, then `GetHistory(10)`. -/
theorem C7_clear_then_empty_witness :
    (∀ c ∈ ([.GetHistory 5, .ClearHistory, .GetHistory (-1)] : List (Call ℚ)),
        c.records = false) ∧
    ((({ history := [⟨0, 10, "add", 1, 2, 3, ""⟩], nextID := 1, maxHistory := 100 } :
        calcSvc ℚ).ClearHistory.run float64.exact
          [.GetHistory 5, .ClearHistory, .GetHistory (-1)]).GetHistory 10 = []) :=
  ⟨by decide, (C7_clear_then_empty float64.exact
    { history := [⟨0, 10, "add", 1, 2, 3, ""⟩], nextID := 1, maxHistory := 100 }
    [.GetHistory 5, .ClearHistory, .GetHistory (-1)] (by decide) 10).2.2.2⟩

/-- C8. `ClearHistory` is idempotent and has no precondition: it is defined on
every ledger state (the empty one included), applying it twice gives the same
state as applying it once, and the ledger is empty after each of the two
calls. -/
theorem C8_clear_idempotent (s : calcSvc F) (maxHistory nextID : Int) :
    s.ClearHistory.ClearHistory = s.ClearHistory
    ∧ s.ClearHistory.history = []
    ∧ s.ClearHistory.ClearHistory.history = []
    ∧ ({ history := [], nextID := nextID, maxHistory := maxHistory } : calcSvc F).ClearHistory
        = { history := [], nextID := nextID, maxHistory := maxHistory } :=
  ⟨rfl, rfl, rfl, rfl⟩

/-- C9. `Divide` fails exactly on a zero divisor: for all `a` and `b` the
returned error is non-nil if and only if `b == 0`; when `b == 0` the returned
value is 0 and the error message is "division by zero is not allowed"
(whatever `a` is); when `b != 0` it returns `a/b` and no error. -/
theorem C9_divide_error_iff_zero (fl : float64.Ops F) (s : calcSvc F) (now : time.Time)
    (a b : F) :
    ((s.Divide fl now a b).1.2.isSome = fl.eqZero b)
    ∧ (s.Divide fl now a b).1 =
        (if fl.eqZero b = true then (fl.zero, some "division by zero is not allowed")
         else (fl.div a b, none))
    ∧ (s.Divide fl now fl.zero fl.zero).1 = (fl.zero, some "division by zero is not allowed") := by
  refine ⟨?_, ?_, ?_⟩
  · unfold calcSvc.Divide calculator.Divide
    cases h : fl.eqZero b <;> simp
  · unfold calcSvc.Divide calculator.Divide
    cases h : fl.eqZero b <;> simp
  · unfold calcSvc.Divide
    simp [fl.eqZero_zero]

/-- C10. A failed divide is still recorded: for every ledger state of positive
capacity and every `a`, after `Divide(a, b)` with `b == 0`, `GetHistory(1)`
returns the single entry with operator "divide", operands `a` and `b` (which
is zero), result 0 and the error message "division by zero is not allowed"
(non-empty, containing "division by zero"), and that same error, with value
0, is returned to the caller. -/
theorem C10_failed_divide_recorded (fl : float64.Ops F) (s : calcSvc F) (now : time.Time)
    (a b : F) (hcap : 0 < s.maxHistory) (hb : fl.eqZero b = true) :
    (s.Divide fl now a b).2.GetHistory 1 =
        [{ ID := s.nextID, Time := now, Op := "divide", A := a, B := b, Result := fl.zero,
           Error := "division by zero is not allowed" }]
    ∧ (s.Divide fl now a b).1 = (fl.zero, some "division by zero is not allowed")
    ∧ "division by zero is not allowed" ≠ ""
    ∧ "division by zero".toList <:+: "division by zero is not allowed".toList := by
  have hd : s.Divide fl now a b =
      ((fl.zero, some "division by zero is not allowed"),
        s.record now "divide" a b fl.zero (some "division by zero is not allowed")) := by
    unfold calcSvc.Divide
    rw [if_pos hb]
  rw [hd]
  refine ⟨?_, rfl, by decide, ?_⟩
  · rw [GetHistory_one_record s now "divide" a b fl.zero _ hcap]
    rfl
  · exact ⟨[], " is not allowed".toList, by decide⟩

/-- C10 at a concrete input: `Divide(5, 0)` on a fresh default service. -/
theorem C10_failed_divide_recorded_witness :
    (0 < (NewCalculatorService [] : calcSvc ℚ).maxHistory ∧ float64.exact.eqZero 0 = true) ∧
    (((NewCalculatorService [] : calcSvc ℚ).Divide float64.exact 7 5 0).2.GetHistory 1 =
        [⟨0, 7, "divide", 5, 0, 0, "division by zero is not allowed"⟩]) :=
  ⟨⟨by decide, by decide⟩, (C10_failed_divide_recorded float64.exact
    (NewCalculatorService []) 7 5 0 (by decide) (by decide)).1⟩

/-- C11. Exactly-once recording: every arithmetic call (`Add`, `Subtract`,
`Multiply`, `Divide`, failing or not) advances the next-id counter by exactly 1
and appends exactly one entry, the one it created (after which the excess over
the capacity is trimmed from the front); `GetHistory` and `ClearHistory`
create no entry and leave the counter alone; hence over any sequential run the
number of entries created, and the advance of the counter, equal the number of
arithmetic calls. -/
theorem C11_exactly_once (fl : float64.Ops F) (s : calcSvc F) (calls : List (Call F)) :
    (∀ c : Call F, c.records = true →
        (s.step fl c).nextID = s.nextID + 1
        ∧ ∃ e, s.recorded fl c = some e
          ∧ (s.step fl c).history
              = (s.history ++ [e]).drop (s.history.length + 1 - s.maxHistory.toNat))
    ∧ (∀ c : Call F, c.records = false →
        (s.step fl c).nextID = s.nextID ∧ s.recorded fl c = none
        ∧ ((s.step fl c).history = s.history ∨ (s.step fl c).history = []))
    ∧ (∀ (now : time.Time) (a b : F),
        (Call.Add now a b).records = true ∧ (Call.Subtract now a b).records = true
        ∧ (Call.Multiply now a b).records = true ∧ (Call.Divide now a b).records = true)
    ∧ (∀ limit : Int, (Call.GetHistory limit : Call F).records = false)
    ∧ (Call.ClearHistory : Call F).records = false
    ∧ (s.issued fl calls).length = calls.countP (fun c => c.records)
    ∧ (s.run fl calls).nextID = s.nextID + (calls.countP (fun c => c.records) : Nat) := by
  refine ⟨?_, ?_, fun _ _ _ => ⟨rfl, rfl, rfl, rfl⟩, fun _ => rfl, rfl, issued_length fl calls s,
    run_nextID fl calls s⟩
  · intro c hc
    rcases step_cases fl s c with ⟨hc', _, _⟩ | ⟨_, now, op, a, b, res, err, hr, hs⟩
    · rw [hc] at hc'; cases hc'
    · refine ⟨by rw [hs, record_nextID], _, hr, ?_⟩
      rw [hs, record_history_exact]
  · intro c hc
    rcases step_cases fl s c with ⟨_, hr, hs⟩ | ⟨hc', _⟩
    · refine ⟨?_, hr, ?_⟩
      · rcases hs with hs | hs <;> rw [hs]
        rfl
      · rcases hs with hs | hs
        · exact Or.inl (by rw [hs])
        · exact Or.inr (by rw [hs]; rfl)
    · rw [hc] at hc'; cases hc'

/-- C12. The newest entry mirrors the call: for every ledger state of positive
capacity and every arithmetic call, right afterwards `GetHistory(1)` returns
exactly one entry, with the operator name of the call ("add", "subtract",
"multiply", "divide"), the operands as given, the value returned to the caller
as result, and as error text the empty string when no error was returned and
the message of the returned error otherwise. -/
theorem C12_newest_entry_mirrors_call (fl : float64.Ops F) (s : calcSvc F) (now : time.Time)
    (a b : F) (hcap : 0 < s.maxHistory) :
    (s.Add fl now a b).2.GetHistory 1 =
        [{ ID := s.nextID, Time := now, Op := "add", A := a, B := b,
           Result := (s.Add fl now a b).1, Error := "" }]
    ∧ (s.Subtract fl now a b).2.GetHistory 1 =
        [{ ID := s.nextID, Time := now, Op := "subtract", A := a, B := b,
           Result := (s.Subtract fl now a b).1, Error := "" }]
    ∧ (s.Multiply fl now a b).2.GetHistory 1 =
        [{ ID := s.nextID, Time := now, Op := "multiply", A := a, B := b,
           Result := (s.Multiply fl now a b).1, Error := "" }]
    ∧ (s.Divide fl now a b).2.GetHistory 1 =
        [{ ID := s.nextID, Time := now, Op := "divide", A := a, B := b,
           Result := (s.Divide fl now a b).1.1,
           Error := match (s.Divide fl now a b).1.2 with
             | some msg => msg
             | none => "" }] := by
  refine ⟨?_, ?_, ?_, ?_⟩
  · simp only [calcSvc.Add]
    rw [GetHistory_one_record _ _ _ _ _ _ _ hcap]; rfl
  · simp only [calcSvc.Subtract]
    rw [GetHistory_one_record _ _ _ _ _ _ _ hcap]; rfl
  · simp only [calcSvc.Multiply]
    rw [GetHistory_one_record _ _ _ _ _ _ _ hcap]; rfl
  · unfold calcSvc.Divide
    split
    · simp only
      rw [GetHistory_one_record _ _ _ _ _ _ _ hcap]; rfl
    · simp only
      rw [GetHistory_one_record _ _ _ _ _ _ _ hcap]
      unfold calcSvc.record.entry
      cases (calculator.Divide fl a b).2 <;> rfl

/-- C12 at a concrete input: `Divide(21, 7)` on a default service. -/
theorem C12_newest_entry_mirrors_call_witness :
    (0 < (NewCalculatorService [] : calcSvc ℚ).maxHistory) ∧
    (((NewCalculatorService [] : calcSvc ℚ).Divide float64.exact 9 21 7).2.GetHistory 1
      = [⟨0, 9, "divide", 21, 7, 3, ""⟩]) :=
  ⟨by decide, by
    have h := (C12_newest_entry_mirrors_call float64.exact
      (NewCalculatorService [] : calcSvc ℚ) 9 21 7 (by decide)).2.2.2
    rw [h]
    simp [calcSvc.Divide, calculator.Divide, float64.exact, NewCalculatorService]
    norm_num⟩

/-- C13. The service's `Add(a, b)`, `Subtract(a, b)` and `Multiply(a, b)`
return exactly `a+b`, `a-b` and `a*b`, and have no error outcome: their result
is a single number, and the entry they record carries that number and an empty
error text. -/
theorem C13_add_subtract_multiply (fl : float64.Ops F) (s : calcSvc F) (now : time.Time)
    (a b : F) :
    (s.Add fl now a b).1 = fl.add a b
    ∧ (s.Subtract fl now a b).1 = fl.sub a b
    ∧ (s.Multiply fl now a b).1 = fl.mul a b
    ∧ s.recorded fl (.Add now a b) =
        some { ID := s.nextID, Time := now, Op := "add", A := a, B := b,
               Result := fl.add a b, Error := "" }
    ∧ s.recorded fl (.Subtract now a b) =
        some { ID := s.nextID, Time := now, Op := "subtract", A := a, B := b,
               Result := fl.sub a b, Error := "" }
    ∧ s.recorded fl (.Multiply now a b) =
        some { ID := s.nextID, Time := now, Op := "multiply", A := a, B := b,
               Result := fl.mul a b, Error := "" }
    ∧ (NewCalculatorService [] : calcSvc ℚ).Add float64.exact now (3 / 2) (15 / 4) = (21 / 4,
        { history := [⟨0, now, "add", 3 / 2, 15 / 4, 21 / 4, ""⟩], nextID := 1,
          maxHistory := 1000 }) :=
  ⟨rfl, rfl, rfl, rfl, rfl, rfl, by
    simp [calcSvc.Add, calculator.Add, float64.exact, NewCalculatorService, calcSvc.record,
      calcSvc.record.entry]
    norm_num⟩

/-- C14. Capacity configuration: `NewCalculatorService()` with no option has
`maxHistory = 1000`; `NewCalculatorService(WithMaxHistory(n))` has
`maxHistory = n` for every `n > 0` and keeps the default 1000 for every
`n <= 0`, the option being ignored (it leaves every configuration as it is). -/
theorem C14_capacity_configuration (n : Int) (c : config) :
    (NewCalculatorService [] : calcSvc F).maxHistory = 1000
    ∧ (NewCalculatorService [WithMaxHistory n] : calcSvc F).maxHistory
        = (if n > 0 then n else 1000)
    ∧ WithMaxHistory n c = (if n > 0 then { maxHistory := n } else c)
    ∧ (NewCalculatorService [WithMaxHistory 100] : calcSvc F).maxHistory = 100
    ∧ (NewCalculatorService [WithMaxHistory 0] : calcSvc F).maxHistory = 1000
    ∧ (NewCalculatorService [WithMaxHistory (-5)] : calcSvc F).maxHistory = 1000 := by
  refine ⟨rfl, ?_, ?_, rfl, rfl, rfl⟩
  · simp only [NewCalculatorService, WithMaxHistory, List.foldl_cons, List.foldl_nil]
    split <;> rfl
  · simp only [WithMaxHistory]

/-- C19. Ids are gap-free from 0: on a freshly constructed service the i-th
recorded invocation (counting from 0) receives id `i`, for any run of calls;
and in every state reached the ids of the stored entries are consecutive
integers in storage order (each one more than its predecessor), the newest
being `nextID - 1` whenever the ledger is non-empty. -/
theorem C19_ids_gap_free (fl : float64.Ops F) (ns : List Int) (calls : List (Call F)) :
    (((NewCalculatorService (ns.map WithMaxHistory) : calcSvc F).issued fl calls).map
        (fun e => e.ID) = idsFrom 0 (calls.countP (fun c => c.records)))
    ∧ (∀ (i : Nat) (e : HistoryEntry F),
        ((NewCalculatorService (ns.map WithMaxHistory) : calcSvc F).issued fl calls)[i]? = some e →
          e.ID = (i : Int))
    ∧ (((NewCalculatorService (ns.map WithMaxHistory) : calcSvc F).run fl calls).history.map
        (fun e => e.ID)
        = idsFrom
            (((NewCalculatorService (ns.map WithMaxHistory) : calcSvc F).run fl calls).nextID
              - (((NewCalculatorService (ns.map WithMaxHistory) : calcSvc F).run fl
                  calls).history.length : Int))
            ((NewCalculatorService (ns.map WithMaxHistory) : calcSvc F).run fl
              calls).history.length)
    ∧ List.Chain' (fun x y => y = x + 1)
        (((NewCalculatorService (ns.map WithMaxHistory) : calcSvc F).run fl calls).history.map
          (fun e => e.ID))
    ∧ (∀ e : HistoryEntry F,
        ((NewCalculatorService (ns.map WithMaxHistory) : calcSvc F).run fl
            calls).history.getLast? = some e →
          e.ID = ((NewCalculatorService (ns.map WithMaxHistory) : calcSvc F).run fl
            calls).nextID - 1) := by
  have h0 : (NewCalculatorService (ns.map WithMaxHistory) : calcSvc F).Consecutive := by
    simp [calcSvc.Consecutive, NewCalculatorService, idsFrom]
  have hc := run_Consecutive fl calls _ h0
  have hi := issued_ID_eq fl calls (NewCalculatorService (ns.map WithMaxHistory) : calcSvc F)
  have hn0 : (NewCalculatorService (ns.map WithMaxHistory) : calcSvc F).nextID = 0 := rfl
  rw [hn0] at hi
  generalize (NewCalculatorService (ns.map WithMaxHistory) : calcSvc F).run fl calls = s at hc
  refine ⟨hi, ?_, hc, ?_, ?_⟩
  · intro i e he
    have hlt : i < calls.countP (fun c => c.records) := by
      rw [← issued_length fl calls (NewCalculatorService (ns.map WithMaxHistory) : calcSvc F)]
      exact (List.getElem?_eq_some_iff.1 he).1
    have h1 : (((NewCalculatorService (ns.map WithMaxHistory) : calcSvc F).issued fl calls).map
        (fun e => e.ID))[i]? = some e.ID := by
      rw [List.getElem?_map, he]; rfl
    rw [hi, idsFrom_getElem? _ 0 i hlt] at h1
    simpa using (Option.some.inj h1).symm
  · rw [hc]; exact idsFrom_chain _ _
  · intro e he
    unfold calcSvc.Consecutive at hc
    have hl : (s.history.map (fun e => e.ID)).getLast? = some e.ID := by
      rw [List.getLast?_map, he]; rfl
    cases hlen : s.history.length with
    | zero =>
      have : s.history = [] := List.length_eq_zero.1 hlen
      rw [this] at he; simp at he
    | succ n =>
      rw [hc, hlen, idsFrom_getLast?] at hl
      have := Option.some.inj hl
      push_cast at this
      omega

set_option maxRecDepth 100000 in
/-- C15 fails as stated: with 51 entries stored (capacity 100) and no `limit`
parameter, `GET /v1/history` answers with the 50 newest entries, not with all
51. -/
theorem C15_counterexample :
    api.sample.ledger51.history.length = 51
    ∧ (API.getHistory api.sample ⟨api.sample.ledger51⟩
          ⟨"GET", "/v1/history", url.Values.ofList [], "", ""⟩).1
        = WriteJSON 200 (.history (api.sample.ledger51.GetHistory 50))
    ∧ (api.sample.ledger51.GetHistory 50).length = 50
    ∧ (API.getHistory api.sample ⟨api.sample.ledger51⟩
          ⟨"GET", "/v1/history", url.Values.ofList [], "", ""⟩).1
        ≠ WriteJSON 200 (.history api.sample.ledger51.history.reverse) := by
  decide

/-- C15, amended. When the `limit` parameter of `GET /v1/history` is absent
(or empty), zero or negative, the handler answers 200 with `GetHistory(50)`:
the 50 most recently recorded entries still stored, newest first, which is
everything retained when at most 50 entries are stored; the ledger is left as
it is. -/
theorem C15_history_default_limit (lib : api.Lib F) (a : API F) (r : http.Request)
    (h : r.Query.Get "limit" = ""
      ∨ ((lib.Atoi (r.Query.Get "limit")).2 = none ∧ (lib.Atoi (r.Query.Get "limit")).1 ≤ 0)) :
    a.getHistory lib r = (WriteJSON 200 (.history (a.svc.GetHistory 50)), a)
    ∧ a.svc.GetHistory 50 = a.svc.history.reverse.take 50
    ∧ (a.svc.history.length ≤ 50 →
        a.getHistory lib r = (WriteJSON 200 (.history a.svc.history.reverse), a)) := by
  have h1 : a.getHistory lib r = (WriteJSON 200 (.history (a.svc.GetHistory 50)), a) := by
    unfold API.getHistory
    rcases h with h | ⟨h, h'⟩
    · simp [h, http.StatusOK]
    · rcases hA : lib.Atoi (r.Query.Get "limit") with ⟨n, e⟩
      rw [hA] at h h'
      simp only at h h'
      subst h
      have hn : ¬ n > 0 := by omega
      simp [hA, hn, http.StatusOK]
  have h2 : a.svc.GetHistory 50 = a.svc.history.reverse.take 50 := by
    rw [GetHistory_eq]
    unfold effectiveLimit
    split
    · next hc =>
      rw [List.take_of_length_le (by simp), List.take_of_length_le (by simp; omega)]
    · rfl
  refine ⟨h1, h2, ?_⟩
  intro hlen
  rw [h1, h2, List.take_of_length_le (by simpa using hlen)]

/-- C15 (amended) at a concrete input: one stored entry, `limit=0`. -/
theorem C15_history_default_limit_witness :
    ((url.Values.ofList [("limit", "0")]).Get "limit" = ""
      ∨ ((api.sample.Atoi ((url.Values.ofList [("limit", "0")]).Get "limit")).2 = none
        ∧ (api.sample.Atoi ((url.Values.ofList [("limit", "0")]).Get "limit")).1 ≤ 0))
    ∧ API.getHistory api.sample
        ⟨{ history := [⟨0, 10, "add", .fin 1, .fin 2, .fin 3, ""⟩], nextID := 1,
           maxHistory := 100 }⟩
        ⟨"GET", "/v1/history", url.Values.ofList [("limit", "0")], "", ""⟩
      = (WriteJSON 200 (.history [⟨0, 10, "add", .fin 1, .fin 2, .fin 3, ""⟩]),
          ⟨{ history := [⟨0, 10, "add", .fin 1, .fin 2, .fin 3, ""⟩], nextID := 1,
             maxHistory := 100 }⟩) :=
  ⟨by decide, (C15_history_default_limit api.sample
      ⟨{ history := [⟨0, 10, "add", .fin 1, .fin 2, .fin 3, ""⟩], nextID := 1,
         maxHistory := 100 }⟩
      ⟨"GET", "/v1/history", url.Values.ofList [("limit", "0")], "", ""⟩
      (by decide)).2.2 (by decide)⟩

/-- C16. Divide-by-zero is a client error at the adapter: a well-formed divide
request with a finite `a` and `b = 0`, sent as `POST /v1/divide` or as
`GET /v1/calculate` with op `divide` or `/` (in any letter case), is answered
with HTTP status 400 and a `Problem` of title "calculation_error", status 400
and detail "division by zero is not allowed", which contains "division by
zero". -/
theorem C16_divide_by_zero_client_error (lib : api.Lib F) (a : API F) (now : time.Time)
    (r1 r2 : http.Request) (req : calcRequest)
    (hm1 : r1.Method = "POST") (hp1 : r1.Path = "/v1/divide")
    (hdec : DecodeJSON lib r1 = .ok req)
    (hpa : (parseJSONNumber lib req.A).2 = none) (hpb : (parseJSONNumber lib req.B).2 = none)
    (hfa : isFinite lib (parseJSONNumber lib req.A).1 = true)
    (hfb : isFinite lib (parseJSONNumber lib req.B).1 = true)
    (hz : lib.eqZero (parseJSONNumber lib req.B).1 = true)
    (hm2 : r2.Method = "GET") (hp2 : r2.Path = "/v1/calculate")
    (hop : lib.ToLower (r2.Query.Get "op") = "divide" ∨ lib.ToLower (r2.Query.Get "op") = "/")
    (ha : r2.Query.Get "a" ≠ "") (hb : r2.Query.Get "b" ≠ "")
    (hqa : (lib.ParseFloat (r2.Query.Get "a")).2 = none)
    (hqb : (lib.ParseFloat (r2.Query.Get "b")).2 = none)
    (hga : isFinite lib (lib.ParseFloat (r2.Query.Get "a")).1 = true)
    (hgb : isFinite lib (lib.ParseFloat (r2.Query.Get "b")).1 = true)
    (hz2 : lib.eqZero (lib.ParseFloat (r2.Query.Get "b")).1 = true) :
    (API.RegisterRoutes lib a now r1).map (fun out => out.1)
        = some { ContentType := "application/json; charset=utf-8", Status := 400,
                 Body := .problem { Type_ := "", Title := "calculation_error", Status := 400,
                                    Detail := "division by zero is not allowed" } }
    ∧ (API.RegisterRoutes lib a now r2).map (fun out => out.1)
        = some { ContentType := "application/json; charset=utf-8", Status := 400,
                 Body := .problem { Type_ := "", Title := "calculation_error", Status := 400,
                                    Detail := "division by zero is not allowed" } }
    ∧ (a.binaryOp lib (fun svc now a1 b1 => svc.Divide lib.toOps now a1 b1) now r1).1
        = WriteProblem 400 "calculation_error" "division by zero is not allowed"
    ∧ (a.calculateQuery lib now r2).1
        = WriteProblem 400 "calculation_error" "division by zero is not allowed"
    ∧ "division by zero".toList <:+: "division by zero is not allowed".toList := by
  have hdiv : ∀ av bv : F, lib.eqZero bv = true →
      (API.respond (a.svc.Divide lib.toOps now av bv)).1
        = WriteProblem 400 "calculation_error" "division by zero is not allowed" := by
    intro av bv h
    unfold API.respond calcSvc.Divide
    rw [if_pos h]
    rfl
  have h1 : (a.binaryOp lib (fun svc now a1 b1 => svc.Divide lib.toOps now a1 b1) now r1).1
      = WriteProblem 400 "calculation_error" "division by zero is not allowed" := by
    rw [binaryOp_finite lib a _ now r1 req hdec hpa hpb hfa hfb]
    exact hdiv _ _ hz
  have hne : lib.ToLower (r2.Query.Get "op") ≠ "" := by
    rcases hop with h | h <;> rw [h] <;> decide
  have h2 : (a.calculateQuery lib now r2).1
      = WriteProblem 400 "calculation_error" "division by zero is not allowed" := by
    rw [calculateQuery_finite lib a now r2 hne ha hb hqa hqb hga hgb]
    rcases hop with h | h
    · rw [h]
      simp only [String.reduceEq, or_self, if_false, true_or, if_true]
      exact hdiv _ _ hz2
    · rw [h]
      simp only [String.reduceEq, or_self, if_false, or_true, if_true]
      exact hdiv _ _ hz2
  refine ⟨?_, ?_, h1, h2, ⟨[], " is not allowed".toList, by decide⟩⟩
  · unfold API.RegisterRoutes
    simp only [hm1, hp1, String.reduceEq, false_and, and_false, if_false, and_self, if_true,
      Option.map_some']
    rw [h1]; rfl
  · unfold API.RegisterRoutes
    simp only [hm2, hp2, String.reduceEq, false_and, and_false, if_false, and_self, if_true,
      Option.map_some']
    rw [h2]; rfl

/-- C16 at a concrete input: `POST /v1/divide` with body `a = 5, b = 0`, and
`GET /v1/calculate?op=/&a=5&b=0`. -/
theorem C16_divide_by_zero_client_error_witness :
    (API.RegisterRoutes api.sample ⟨NewCalculatorService [WithMaxHistory 100]⟩ 7
        ⟨"POST", "/v1/divide", url.Values.ofList [], "application/json",
          "\x7b\"a\": 5, \"b\": 0\x7d"⟩).map (fun out => out.1)
      = some { ContentType := "application/json; charset=utf-8", Status := 400,
               Body := .problem { Type_ := "", Title := "calculation_error", Status := 400,
                                  Detail := "division by zero is not allowed" } } :=
  (C16_divide_by_zero_client_error api.sample ⟨NewCalculatorService [WithMaxHistory 100]⟩ 7
    ⟨"POST", "/v1/divide", url.Values.ofList [], "application/json",
      "\x7b\"a\": 5, \"b\": 0\x7d"⟩
    ⟨"GET", "/v1/calculate", url.Values.ofList [("op", "/"), ("a", "5"), ("b", "0")], "", ""⟩
    ⟨"5", "0"⟩ rfl rfl rfl (by decide) (by decide) (by decide) (by decide) (by decide)
    rfl rfl (by decide) (by decide) (by decide) (by decide) (by decide) (by decide) (by decide)
    (by decide)).1

/-- C17 fails as stated: `POST /v1/add` with the body `a = 1e309` and no `b`
decodes, its operand `a` parses (the range error is swallowed) to +Inf, which
is not finite, and yet the answer is the problem titled "invalid_json", not
"invalid_input": the other operand is the empty `json.Number`, which does not
parse, and the parse errors are tested first (lines 73-75). -/
theorem C17_counterexample :
    DecodeJSON api.sample
        ⟨"POST", "/v1/add", url.Values.ofList [], "application/json", "\x7b\"a\": 1e309\x7d"⟩
      = .ok ⟨"1e309", ""⟩
    ∧ parseJSONNumber api.sample "1e309" = (.posInf, none)
    ∧ api.sample.IsInf (parseJSONNumber api.sample "1e309").1 = true
    ∧ isFinite api.sample (parseJSONNumber api.sample "1e309").1 = false
    ∧ (parseJSONNumber api.sample "").2 = some .ErrSyntax
    ∧ (API.binaryOp api.sample ⟨NewCalculatorService []⟩
          (fun svc now a1 b1 => (((svc.Add api.sample.toOps now a1 b1).1, none),
            (svc.Add api.sample.toOps now a1 b1).2)) 7
          ⟨"POST", "/v1/add", url.Values.ofList [], "application/json",
            "\x7b\"a\": 1e309\x7d"⟩).1
        = { ContentType := "application/json; charset=utf-8", Status := 400,
            Body := .problem { Type_ := "", Title := "invalid_json", Status := 400,
                               Detail := "a and b must be numbers" } }
    ∧ (API.binaryOp api.sample ⟨NewCalculatorService []⟩
          (fun svc now a1 b1 => (((svc.Add api.sample.toOps now a1 b1).1, none),
            (svc.Add api.sample.toOps now a1 b1).2)) 7
          ⟨"POST", "/v1/add", url.Values.ofList [], "application/json",
            "\x7b\"a\": 1e309\x7d"⟩).1
        ≠ { ContentType := "application/json; charset=utf-8", Status := 400,
            Body := .problem { Type_ := "", Title := "invalid_input", Status := 400,
                               Detail := "inputs must be finite numbers" } } :=
  ⟨rfl, by decide, by decide, by decide, by decide, by decide, by decide⟩

/-- C17, amended. Finiteness filtering at the boundary: in `binaryOp`, on a
request that decodes and one of whose parsed operands is not finite (NaN, +Inf
or -Inf), the request is rejected with status 400, under the title
"invalid_input" when both operands parsed and under "invalid_json" when the
other operand did not parse; in `calculateQuery`, with `op`, `a` and `b`
present and one parsed operand not finite, it is rejected with status 400 and
title "invalid_input". In each case no operation is invoked (the answer is the
same whatever the operation is) and the adapter with its ledger is left
unchanged; hence on every request each handler either answers with a problem
without touching the service, or calls one service operation on two finite
operands. -/
theorem C17_finiteness_filter (lib : api.Lib F) (a : API F) (now : time.Time)
    (r1 r2 : http.Request) (req : calcRequest)
    (hdec : DecodeJSON lib r1 = .ok req)
    (hnf1 : isFinite lib (parseJSONNumber lib req.A).1 = false
      ∨ isFinite lib (parseJSONNumber lib req.B).1 = false)
    (hop : lib.ToLower (r2.Query.Get "op") ≠ "")
    (ha : r2.Query.Get "a" ≠ "") (hb : r2.Query.Get "b" ≠ "")
    (hnf2 : isFinite lib (lib.ParseFloat (r2.Query.Get "a")).1 = false
      ∨ isFinite lib (lib.ParseFloat (r2.Query.Get "b")).1 = false) :
    (∀ op : binOp F, a.binaryOp lib op now r1
        = ({ ContentType := "application/json; charset=utf-8", Status := 400,
             Body := .problem
               (if (parseJSONNumber lib req.A).2 = none ∧ (parseJSONNumber lib req.B).2 = none
                then { Type_ := "", Title := "invalid_input", Status := 400,
                       Detail := "inputs must be finite numbers" }
                else { Type_ := "", Title := "invalid_json", Status := 400,
                       Detail := "a and b must be numbers" }) }, a))
    ∧ a.calculateQuery lib now r2
        = ({ ContentType := "application/json; charset=utf-8", Status := 400,
             Body := .problem { Type_ := "", Title := "invalid_input", Status := 400,
                                Detail := "a and b must be valid finite numbers" } }, a)
    ∧ (∀ x : F, isFinite lib x = false ↔ (lib.IsNaN x = true ∨ lib.IsInf x = true))
    ∧ (∀ r : http.Request,
        (∃ title detail, ∀ op : binOp F,
            a.binaryOp lib op now r = (WriteProblem 400 title detail, a))
        ∨ (∃ av bv, isFinite lib av = true ∧ isFinite lib bv = true ∧ ∀ op : binOp F,
            a.binaryOp lib op now r = API.respond (op a.svc now av bv)))
    ∧ (∀ r : http.Request,
        (∃ title detail, a.calculateQuery lib now r = (WriteProblem 400 title detail, a))
        ∨ (∃ av bv, isFinite lib av = true ∧ isFinite lib bv = true
            ∧ (a.calculateQuery lib now r
                  = API.respond (((a.svc.Add lib.toOps now av bv).1, none),
                      (a.svc.Add lib.toOps now av bv).2)
              ∨ a.calculateQuery lib now r
                  = API.respond (((a.svc.Subtract lib.toOps now av bv).1, none),
                      (a.svc.Subtract lib.toOps now av bv).2)
              ∨ a.calculateQuery lib now r
                  = API.respond (((a.svc.Multiply lib.toOps now av bv).1, none),
                      (a.svc.Multiply lib.toOps now av bv).2)
              ∨ a.calculateQuery lib now r
                  = API.respond (a.svc.Divide lib.toOps now av bv)))) := by
  refine ⟨fun op => ?_, ?_, ?_, fun r => binaryOp_cases lib a now r,
    fun r => calculateQuery_cases lib a now r⟩
  · by_cases hp : (parseJSONNumber lib req.A).2 = none ∧ (parseJSONNumber lib req.B).2 = none
    · rw [if_pos hp, binaryOp_nonfinite lib a op now r1 req hdec hp.1 hp.2 hnf1]; rfl
    · rw [if_neg hp]
      have hp' : (parseJSONNumber lib req.A).2 ≠ none ∨ (parseJSONNumber lib req.B).2 ≠ none := by
        by_contra hcon
        simp only [not_or, ne_eq, not_not] at hcon
        exact hp hcon
      unfold API.binaryOp
      rw [hdec]
      simp only [if_pos hp']; rfl
  · have hrej := calculateQuery_rejected lib a now r2 (by
      rintro ⟨_, _, _, _, _, hfa, hfb⟩
      rcases hnf2 with h | h
      · rw [h] at hfa; cases hfa
      · rw [h] at hfb; cases hfb)
    rcases hrej with e | e
    · exfalso
      unfold API.calculateQuery at e
      have hm : ¬ (lib.ToLower (r2.Query.Get "op") = "" ∨ r2.Query.Get "a" = ""
          ∨ r2.Query.Get "b" = "") := by
        simp only [not_or]; exact ⟨hop, ha, hb⟩
      have hc : (lib.ParseFloat (r2.Query.Get "a")).2 ≠ none
          ∨ (lib.ParseFloat (r2.Query.Get "b")).2 ≠ none
          ∨ (!isFinite lib (lib.ParseFloat (r2.Query.Get "a")).1) = true
          ∨ (!isFinite lib (lib.ParseFloat (r2.Query.Get "b")).1) = true := by
        rcases hnf2 with h | h
        · exact Or.inr (Or.inr (Or.inl (by rw [h]; rfl)))
        · exact Or.inr (Or.inr (Or.inr (by rw [h]; rfl)))
      simp only [if_neg hm, if_pos hc] at e
      have := congrArg (fun out => out.1.Body) e
      simp [WriteProblem, WriteJSON] at this
    · rw [e]; rfl
  · intro x
    unfold isFinite
    cases lib.IsNaN x <;> cases lib.IsInf x <;> simp

/-- C17 (amended) at a concrete input: `POST /v1/add` with body
`a = 1e309, b = 2` and `GET /v1/calculate?op=add&a=NaN&b=1`, on a fresh
service. -/
theorem C17_finiteness_filter_witness :
    (∀ op : binOp float64.Value,
      API.binaryOp api.sample ⟨NewCalculatorService []⟩ op 7
        ⟨"POST", "/v1/add", url.Values.ofList [], "application/json",
          "\x7b\"a\": 1e309, \"b\": 2\x7d"⟩
      = ({ ContentType := "application/json; charset=utf-8", Status := 400,
           Body := .problem { Type_ := "", Title := "invalid_input", Status := 400,
                              Detail := "inputs must be finite numbers" } },
          ⟨NewCalculatorService []⟩))
    ∧ API.calculateQuery api.sample ⟨NewCalculatorService []⟩ 7
        ⟨"GET", "/v1/calculate", url.Values.ofList [("op", "add"), ("a", "NaN"), ("b", "1")],
          "", ""⟩
      = ({ ContentType := "application/json; charset=utf-8", Status := 400,
           Body := .problem { Type_ := "", Title := "invalid_input", Status := 400,
                              Detail := "a and b must be valid finite numbers" } },
          ⟨NewCalculatorService []⟩) :=
  ⟨(C17_finiteness_filter api.sample ⟨NewCalculatorService []⟩ 7
      ⟨"POST", "/v1/add", url.Values.ofList [], "application/json",
        "\x7b\"a\": 1e309, \"b\": 2\x7d"⟩
      ⟨"GET", "/v1/calculate", url.Values.ofList [("op", "add"), ("a", "NaN"), ("b", "1")],
        "", ""⟩
      ⟨"1e309", "2"⟩ rfl (by decide) (by decide) (by decide) (by decide) (by decide)).1,
   (C17_finiteness_filter api.sample ⟨NewCalculatorService []⟩ 7
      ⟨"POST", "/v1/add", url.Values.ofList [], "application/json",
        "\x7b\"a\": 1e309, \"b\": 2\x7d"⟩
      ⟨"GET", "/v1/calculate", url.Values.ofList [("op", "add"), ("a", "NaN"), ("b", "1")],
        "", ""⟩
      ⟨"1e309", "2"⟩ rfl (by decide) (by decide) (by decide) (by decide) (by decide)).2.1⟩

/-- C20. Unknown operator in the query endpoint: when the lower-cased `op` is
non-empty and is none of add, +, subtract, -, multiply, *, x, divide, /, and
`a` and `b` are non-empty and parse as finite numbers, `calculateQuery`
answers with status 400 and title "invalid_op", and the adapter is returned
unchanged: no service operation was called (the next-id counter is the same)
and no history entry was recorded. -/
theorem C20_unknown_operator (lib : api.Lib F) (a : API F) (now : time.Time)
    (r : http.Request)
    (hop : lib.ToLower (r.Query.Get "op")
      ∉ ["add", "+", "subtract", "-", "multiply", "*", "x", "divide", "/"])
    (hne : lib.ToLower (r.Query.Get "op") ≠ "")
    (ha : r.Query.Get "a" ≠ "") (hb : r.Query.Get "b" ≠ "")
    (hpa : (lib.ParseFloat (r.Query.Get "a")).2 = none)
    (hpb : (lib.ParseFloat (r.Query.Get "b")).2 = none)
    (hfa : isFinite lib (lib.ParseFloat (r.Query.Get "a")).1 = true)
    (hfb : isFinite lib (lib.ParseFloat (r.Query.Get "b")).1 = true) :
    a.calculateQuery lib now r
        = ({ ContentType := "application/json; charset=utf-8", Status := 400,
             Body := .problem { Type_ := "", Title := "invalid_op", Status := 400,
                                Detail := "use add|subtract|multiply|divide" } }, a)
    ∧ (a.calculateQuery lib now r).2.svc.history = a.svc.history
    ∧ (a.calculateQuery lib now r).2.svc.nextID = a.svc.nextID := by
  have e : a.calculateQuery lib now r
      = (WriteProblem 400 "invalid_op" "use add|subtract|multiply|divide", a) := by
    rw [calculateQuery_finite lib a now r hne ha hb hpa hpb hfa hfb]
    simp only [List.mem_cons, List.mem_singleton, List.not_mem_nil, or_false, not_or] at hop
    obtain ⟨h1, h2, h3, h4, h5, h6, h7, h8, h9⟩ := hop
    simp only [h1, h2, h3, h4, h5, h6, h7, h8, h9, or_self, if_false]
  rw [e]
  exact ⟨rfl, rfl, rfl⟩

/-- C20 at a concrete input: `GET /v1/calculate?op=pow&a=2&b=3`. -/
theorem C20_unknown_operator_witness :
    API.calculateQuery api.sample ⟨NewCalculatorService [WithMaxHistory 100]⟩ 7
        ⟨"GET", "/v1/calculate", url.Values.ofList [("op", "pow"), ("a", "2"), ("b", "3")],
          "", ""⟩
      = ({ ContentType := "application/json; charset=utf-8", Status := 400,
           Body := .problem { Type_ := "", Title := "invalid_op", Status := 400,
                              Detail := "use add|subtract|multiply|divide" } },
          ⟨NewCalculatorService [WithMaxHistory 100]⟩) :=
  (C20_unknown_operator api.sample ⟨NewCalculatorService [WithMaxHistory 100]⟩ 7
    ⟨"GET", "/v1/calculate", url.Values.ofList [("op", "pow"), ("a", "2"), ("b", "3")], "", ""⟩
    (by decide) (by decide) (by decide) (by decide) (by decide) (by decide) (by decide)
    (by decide)).1

/-- C21. Missing parameters in the query endpoint: whenever one of the query
parameters `op`, `a`, `b` is absent or empty (its `Get` is the empty string),
`calculateQuery` answers with status 400 and title "missing_params" whatever
the other parameters are (nothing is parsed or matched before), and the
adapter with its ledger is returned unchanged. The lower-casing of the empty
string is the empty string, as for `strings.ToLower`. -/
theorem C21_missing_params (lib : api.Lib F) (a : API F) (now : time.Time) (r : http.Request)
    (hlow : lib.ToLower "" = "")
    (h : r.Query.Get "op" = "" ∨ r.Query.Get "a" = "" ∨ r.Query.Get "b" = "") :
    a.calculateQuery lib now r
        = ({ ContentType := "application/json; charset=utf-8", Status := 400,
             Body := .problem { Type_ := "", Title := "missing_params", Status := 400,
                                Detail := "op, a, and b are required" } }, a)
    ∧ (a.calculateQuery lib now r).2.svc = a.svc
    ∧ (∀ (v : url.Values) (key : String), v key = [] → v.Get key = "")
    ∧ (∀ (v : url.Values) (key : String) (rest : List String),
        v key = "" :: rest → v.Get key = "") := by
  have hm : lib.ToLower (r.Query.Get "op") = "" ∨ r.Query.Get "a" = ""
      ∨ r.Query.Get "b" = "" := by
    rcases h with h | h | h
    · exact Or.inl (by rw [h, hlow])
    · exact Or.inr (Or.inl h)
    · exact Or.inr (Or.inr h)
  have e : a.calculateQuery lib now r
      = (WriteProblem 400 "missing_params" "op, a, and b are required", a) := by
    unfold API.calculateQuery
    simp only [if_pos hm]; rfl
  rw [e]
  refine ⟨rfl, rfl, ?_, ?_⟩
  · intro v key hv; simp [url.Values.Get, hv]
  · intro v key rest hv; simp [url.Values.Get, hv]

/-- C21 at a concrete input: `GET /v1/calculate?op=add&a=2` (no `b`). -/
theorem C21_missing_params_witness :
    API.calculateQuery api.sample ⟨NewCalculatorService [WithMaxHistory 100]⟩ 7
        ⟨"GET", "/v1/calculate", url.Values.ofList [("op", "add"), ("a", "2")], "", ""⟩
      = ({ ContentType := "application/json; charset=utf-8", Status := 400,
           Body := .problem { Type_ := "", Title := "missing_params", Status := 400,
                              Detail := "op, a, and b are required" } },
          ⟨NewCalculatorService [WithMaxHistory 100]⟩) :=
  (C21_missing_params api.sample ⟨NewCalculatorService [WithMaxHistory 100]⟩ 7
    ⟨"GET", "/v1/calculate", url.Values.ofList [("op", "add"), ("a", "2")], "", ""⟩
    (by decide) (by decide)).1

/-- C23. Single-step eviction of at most one entry: in a state with
`maxHistory >= 1` and at most `maxHistory` stored entries, a `record` call
removes no entry when fewer than `maxHistory` were stored, and removes exactly
one, the oldest, when exactly `maxHistory` were stored; the stored count
afterwards is `min (count + 1) maxHistory`, and the older entries that remain
are unchanged and in the same order, followed by the new entry. -/
theorem C23_single_step_eviction (s : calcSvc F) (now : time.Time) (op : String)
    (a b result : F) (err : error) (hcap : 1 ≤ s.maxHistory)
    (hlen : (s.history.length : Int) ≤ s.maxHistory) :
    ((s.history.length : Int) < s.maxHistory →
        (s.record now op a b result err).history
          = s.history ++ [calcSvc.record.entry s now op a b result err])
    ∧ ((s.history.length : Int) = s.maxHistory →
        (s.record now op a b result err).history
          = s.history.drop 1 ++ [calcSvc.record.entry s now op a b result err])
    ∧ ((s.record now op a b result err).history.length : Int)
        = min ((s.history.length : Int) + 1) s.maxHistory := by
  obtain ⟨k, hk⟩ := Int.eq_ofNat_of_zero_le (by omega : 0 ≤ s.maxHistory)
  have hh := record_history s now op a b result err k hk
  rw [hk] at hcap hlen
  refine ⟨?_, ?_, ?_⟩
  · intro hlt
    rw [hk] at hlt
    have : s.history.length + 1 - k = 0 := by omega
    rw [hh, this, List.drop_zero]
  · intro heq
    rw [hk] at heq
    have : s.history.length + 1 - k = 1 := by omega
    rw [hh, this, List.drop_append_of_le_length (by omega)]
  · rw [hh, hk]
    simp only [List.length_drop, List.length_append, List.length_singleton]
    omega

/-- C23 at a concrete input: a full ledger of capacity 2. -/
theorem C23_single_step_eviction_witness :
    ((1 : Int) ≤ 2 ∧ (2 : Int) ≤ 2) ∧
    (({ history := [⟨5, 10, "add", 1, 2, 3, ""⟩, ⟨6, 11, "add", 2, 3, 5, ""⟩], nextID := 7,
        maxHistory := 2 } : calcSvc ℚ).record 12 "multiply" 3 4 12 none).history
      = [⟨6, 11, "add", 2, 3, 5, ""⟩, ⟨7, 12, "multiply", 3, 4, 12, ""⟩] :=
  ⟨by decide, (C23_single_step_eviction (F := ℚ)
    { history := [⟨5, 10, "add", 1, 2, 3, ""⟩, ⟨6, 11, "add", 2, 3, 5, ""⟩], nextID := 7,
      maxHistory := 2 } 12 "multiply" 3 4 12 none (by decide) (by decide)).2.1 (by decide)⟩

/-- C24. `GetHistory` is a pure read: for every ledger state and every integer
limit, the call leaves the state (stored entries, next-id counter and
`maxHistory`) exactly as it was, so a second `GetHistory` with the same limit
returns the same result, and so does one after any number of `GetHistory`
calls. -/
theorem C24_getHistory_pure_read (fl : float64.Ops F) (s : calcSvc F) (limit : Int)
    (limits : List Int) :
    s.step fl (.GetHistory limit) = s
    ∧ (s.step fl (.GetHistory limit)).history = s.history
    ∧ (s.step fl (.GetHistory limit)).nextID = s.nextID
    ∧ (s.step fl (.GetHistory limit)).maxHistory = s.maxHistory
    ∧ (s.step fl (.GetHistory limit)).GetHistory limit = s.GetHistory limit
    ∧ s.run fl (limits.map Call.GetHistory) = s
    ∧ (s.run fl (limits.map Call.GetHistory)).GetHistory limit = s.GetHistory limit := by
  have hrun : s.run fl (limits.map Call.GetHistory) = s := by
    induction limits with
    | nil => rfl
    | cons l ls ih => exact ih
  rw [hrun]
  exact ⟨rfl, rfl, rfl, rfl, rfl, rfl, rfl⟩

/-- C26. The capacity is positive and fixed: for every list of
`WithMaxHistory` options, the `maxHistory` of the built service is the last
positive `n` among them, or 1000 when none is positive; it is at least 1; and
no service operation (arithmetic, `GetHistory`, `ClearHistory`), nor any
sequence of them, changes it. -/
theorem C26_capacity_positive_fixed (fl : float64.Ops F) (ns : List Int) (s : calcSvc F)
    (c : Call F) (calls : List (Call F)) :
    (NewCalculatorService (ns.map WithMaxHistory) : calcSvc F).maxHistory
        = ((ns.filter (fun n => decide (0 < n))).getLast?).getD 1000
    ∧ 1 ≤ (NewCalculatorService (ns.map WithMaxHistory) : calcSvc F).maxHistory
    ∧ (s.step fl c).maxHistory = s.maxHistory
    ∧ (s.run fl calls).maxHistory = s.maxHistory
    ∧ ((NewCalculatorService (ns.map WithMaxHistory) : calcSvc F).run fl calls).maxHistory
        = ((ns.filter (fun n => decide (0 < n))).getLast?).getD 1000
    ∧ (NewCalculatorService ([5, -3, 7, 0].map WithMaxHistory) : calcSvc F).maxHistory = 7 := by
  have h1 : (NewCalculatorService (ns.map WithMaxHistory) : calcSvc F).maxHistory
      = ((ns.filter (fun n => decide (0 < n))).getLast?).getD 1000 := by
    unfold NewCalculatorService
    exact foldl_options_eq ns _
  have h2 := NewCalculatorService_maxHistory_pos (F := F) ns
  refine ⟨h1, by omega, step_maxHistory fl s c, run_maxHistory fl calls s, ?_, rfl⟩
  rw [run_maxHistory, h1]

/-- C27. Query endpoint dispatch agrees with the dedicated endpoints: for
finite operands and an `op` whose lower-cased form is add or + (resp. subtract
or -; multiply, * or x; divide or /), `calculateQuery` answers with the outcome
of exactly one call of the service's `Add` (resp. `Subtract`, `Multiply`,
`Divide`) on the two operands, and the adapter then holds the service after
that call; this is the answer and the ledger effect of the `POST` handler of
that operation (`POST /v1/add`, ...) on a request carrying the same operands.
The operator is matched after lower-casing. -/
theorem C27_query_dispatch (lib : api.Lib F) (a : API F) (now : time.Time)
    (r1 r2 : http.Request) (req : calcRequest)
    (hm1 : r1.Method = "POST") (hdec : DecodeJSON lib r1 = .ok req)
    (hpa : (parseJSONNumber lib req.A).2 = none) (hpb : (parseJSONNumber lib req.B).2 = none)
    (hfa : isFinite lib (parseJSONNumber lib req.A).1 = true)
    (hfb : isFinite lib (parseJSONNumber lib req.B).1 = true)
    (ha : r2.Query.Get "a" ≠ "") (hb : r2.Query.Get "b" ≠ "")
    (hqa : (lib.ParseFloat (r2.Query.Get "a")).2 = none)
    (hqb : (lib.ParseFloat (r2.Query.Get "b")).2 = none)
    (hsa : (lib.ParseFloat (r2.Query.Get "a")).1 = (parseJSONNumber lib req.A).1)
    (hsb : (lib.ParseFloat (r2.Query.Get "b")).1 = (parseJSONNumber lib req.B).1) :
    ((lib.ToLower (r2.Query.Get "op") = "add" ∨ lib.ToLower (r2.Query.Get "op") = "+") →
        a.calculateQuery lib now r2 = API.respond (((a.svc.Add lib.toOps now (parseJSONNumber lib req.A).1
              (parseJSONNumber lib req.B).1).1, none),
            (a.svc.Add lib.toOps now (parseJSONNumber lib req.A).1
              (parseJSONNumber lib req.B).1).2)
        ∧ (a.calculateQuery lib now r2).2.svc
            = (a.svc.Add lib.toOps now (parseJSONNumber lib req.A).1
                (parseJSONNumber lib req.B).1).2
        ∧ a.calculateQuery lib now r2 = a.binaryOp lib (fun svc now a1 b1 =>
              (((svc.Add lib.toOps now a1 b1).1, none), (svc.Add lib.toOps now a1 b1).2)) now r1
        ∧ (r1.Path = "/v1/add" →
            API.RegisterRoutes lib a now r1 = some (a.calculateQuery lib now r2)))
    ∧
    ((lib.ToLower (r2.Query.Get "op") = "subtract" ∨ lib.ToLower (r2.Query.Get "op") = "-") →
        a.calculateQuery lib now r2 = API.respond (((a.svc.Subtract lib.toOps now (parseJSONNumber lib req.A).1
              (parseJSONNumber lib req.B).1).1, none),
            (a.svc.Subtract lib.toOps now (parseJSONNumber lib req.A).1
              (parseJSONNumber lib req.B).1).2)
        ∧ (a.calculateQuery lib now r2).2.svc
            = (a.svc.Subtract lib.toOps now (parseJSONNumber lib req.A).1
                (parseJSONNumber lib req.B).1).2
        ∧ a.calculateQuery lib now r2 = a.binaryOp lib (fun svc now a1 b1 =>
              (((svc.Subtract lib.toOps now a1 b1).1, none), (svc.Subtract lib.toOps now a1 b1).2)) now r1
        ∧ (r1.Path = "/v1/subtract" →
            API.RegisterRoutes lib a now r1 = some (a.calculateQuery lib now r2)))
    ∧
    ((lib.ToLower (r2.Query.Get "op") = "multiply" ∨ lib.ToLower (r2.Query.Get "op") = "*"
        ∨ lib.ToLower (r2.Query.Get "op") = "x") →
        a.calculateQuery lib now r2 = API.respond (((a.svc.Multiply lib.toOps now (parseJSONNumber lib req.A).1
              (parseJSONNumber lib req.B).1).1, none),
            (a.svc.Multiply lib.toOps now (parseJSONNumber lib req.A).1
              (parseJSONNumber lib req.B).1).2)
        ∧ (a.calculateQuery lib now r2).2.svc
            = (a.svc.Multiply lib.toOps now (parseJSONNumber lib req.A).1
                (parseJSONNumber lib req.B).1).2
        ∧ a.calculateQuery lib now r2 = a.binaryOp lib (fun svc now a1 b1 =>
              (((svc.Multiply lib.toOps now a1 b1).1, none), (svc.Multiply lib.toOps now a1 b1).2)) now r1
        ∧ (r1.Path = "/v1/multiply" →
            API.RegisterRoutes lib a now r1 = some (a.calculateQuery lib now r2)))
    ∧
    ((lib.ToLower (r2.Query.Get "op") = "divide" ∨ lib.ToLower (r2.Query.Get "op") = "/") →
        a.calculateQuery lib now r2 = API.respond (a.svc.Divide lib.toOps now (parseJSONNumber lib req.A).1
            (parseJSONNumber lib req.B).1)
        ∧ (a.calculateQuery lib now r2).2.svc
            = (a.svc.Divide lib.toOps now (parseJSONNumber lib req.A).1
                (parseJSONNumber lib req.B).1).2
        ∧ a.calculateQuery lib now r2 = a.binaryOp lib (fun svc now a1 b1 => svc.Divide lib.toOps now a1 b1) now r1
        ∧ (r1.Path = "/v1/divide" →
            API.RegisterRoutes lib a now r1 = some (a.calculateQuery lib now r2))) := by
  have hga : isFinite lib (lib.ParseFloat (r2.Query.Get "a")).1 = true := by rw [hsa]; exact hfa
  have hgb : isFinite lib (lib.ParseFloat (r2.Query.Get "b")).1 = true := by rw [hsb]; exact hfb
  have key : lib.ToLower (r2.Query.Get "op") ≠ "" → _ := fun hne =>
    calculateQuery_finite lib a now r2 hne ha hb hqa hqb hga hgb
  rw [hsa, hsb] at key
  have hbin : ∀ op : binOp F, a.binaryOp lib op now r1
      = API.respond (op a.svc now (parseJSONNumber lib req.A).1 (parseJSONNumber lib req.B).1) :=
    fun op => binaryOp_finite lib a op now r1 req hdec hpa hpb hfa hfb
  refine ⟨?_, ?_, ?_, ?_⟩
  · intro h
    have e : a.calculateQuery lib now r2 = API.respond
        (((a.svc.Add lib.toOps now (parseJSONNumber lib req.A).1
            (parseJSONNumber lib req.B).1).1, none),
          (a.svc.Add lib.toOps now (parseJSONNumber lib req.A).1
            (parseJSONNumber lib req.B).1).2) := by
      have hne : lib.ToLower (r2.Query.Get "op") ≠ "" := by
        rcases h with h | h <;> rw [h] <;> decide
      rw [key hne, if_pos h]
    refine ⟨e, by rw [e, respond_svc], by rw [e, hbin], ?_⟩
    intro hp
    unfold API.RegisterRoutes
    simp only [hm1, hp, String.reduceEq, false_and, and_false, if_false, and_self, if_true]
    rw [e, hbin]
  · intro h
    have e : a.calculateQuery lib now r2 = API.respond
        (((a.svc.Subtract lib.toOps now (parseJSONNumber lib req.A).1
            (parseJSONNumber lib req.B).1).1, none),
          (a.svc.Subtract lib.toOps now (parseJSONNumber lib req.A).1
            (parseJSONNumber lib req.B).1).2) := by
      have hne : lib.ToLower (r2.Query.Get "op") ≠ "" := by
        rcases h with h | h <;> rw [h] <;> decide
      rw [key hne]
      rcases h with h | h <;> rw [h] <;>
        simp only [String.reduceEq, or_self, if_false, true_or, or_true, if_true]
    refine ⟨e, by rw [e, respond_svc], by rw [e, hbin], ?_⟩
    intro hp
    unfold API.RegisterRoutes
    simp only [hm1, hp, String.reduceEq, false_and, and_false, if_false, and_self, if_true]
    rw [e, hbin]
  · intro h
    have e : a.calculateQuery lib now r2 = API.respond
        (((a.svc.Multiply lib.toOps now (parseJSONNumber lib req.A).1
            (parseJSONNumber lib req.B).1).1, none),
          (a.svc.Multiply lib.toOps now (parseJSONNumber lib req.A).1
            (parseJSONNumber lib req.B).1).2) := by
      have hne : lib.ToLower (r2.Query.Get "op") ≠ "" := by
        rcases h with h | h | h <;> rw [h] <;> decide
      rw [key hne]
      rcases h with h | h | h <;> rw [h] <;>
        simp only [String.reduceEq, or_self, if_false, true_or, or_true, if_true]
    refine ⟨e, by rw [e, respond_svc], by rw [e, hbin], ?_⟩
    intro hp
    unfold API.RegisterRoutes
    simp only [hm1, hp, String.reduceEq, false_and, and_false, if_false, and_self, if_true]
    rw [e, hbin]
  · intro h
    have e : a.calculateQuery lib now r2 = API.respond
        (a.svc.Divide lib.toOps now (parseJSONNumber lib req.A).1
          (parseJSONNumber lib req.B).1) := by
      have hne : lib.ToLower (r2.Query.Get "op") ≠ "" := by
        rcases h with h | h <;> rw [h] <;> decide
      rw [key hne]
      rcases h with h | h <;> rw [h] <;>
        simp only [String.reduceEq, or_self, if_false, true_or, or_true, if_true]
    refine ⟨e, by rw [e, respond_svc], by rw [e, hbin], ?_⟩
    intro hp
    unfold API.RegisterRoutes
    simp only [hm1, hp, String.reduceEq, false_and, and_false, if_false, and_self, if_true]
    rw [e, hbin]

/-- C27 at a concrete input: `GET /v1/calculate?op=ADD&a=5&b=0` against
`POST /v1/add` with body `a = 5, b = 0`, on a fresh service. -/
theorem C27_query_dispatch_witness :
    API.RegisterRoutes api.sample ⟨NewCalculatorService [WithMaxHistory 100]⟩ 7
        ⟨"POST", "/v1/add", url.Values.ofList [], "application/json",
          "\x7b\"a\": 5, \"b\": 0\x7d"⟩
      = some (API.calculateQuery api.sample ⟨NewCalculatorService [WithMaxHistory 100]⟩ 7
          ⟨"GET", "/v1/calculate", url.Values.ofList [("op", "ADD"), ("a", "5"), ("b", "0")],
            "", ""⟩) :=
  (C27_query_dispatch api.sample ⟨NewCalculatorService [WithMaxHistory 100]⟩ 7
    ⟨"POST", "/v1/add", url.Values.ofList [], "application/json",
      "\x7b\"a\": 5, \"b\": 0\x7d"⟩
    ⟨"GET", "/v1/calculate", url.Values.ofList [("op", "ADD"), ("a", "5"), ("b", "0")], "", ""⟩
    ⟨"5", "0"⟩ rfl rfl (by decide) (by decide) (by decide) (by decide) (by decide) (by decide)
    (by decide) (by decide) (by decide) (by decide)).1 (by decide) |>.2.2.2 rfl

end Claims

